import Mathlib

/-!
Shallow embedding of the trace-metric extraction and summary-statistics core of
the rn-perf-toolkit repository (src/measure_performance.ts).

The TypeScript code scans raw trace text with JavaScript regular expressions.
Every pattern the code builds has the same restricted shape: a sequence of
literal characters, single-character classes quantified by `+` (greedy),
`.*` (greedy) or `.*?` (lazy), exactly one capturing group `([0-9.]+)`, and in
the broken regex-literal patterns a mid-pattern `$` end-of-input anchor.  We
embed that fragment directly: a pattern is a `List Tok`, and `matchToks`
implements the JavaScript backtracking order (greedy tries longest first,
lazy shortest first); `reMatch` implements `String.prototype.match`'s
leftmost-position search and returns the text captured by group 1.

Numbers are embedded as exact rationals (`ℚ`): `parseFloat` of a `[0-9.]+`
capture and `toFixed(3)` rounding are modelled decimal-exactly.  JavaScript
`NaN` (produced by `parseFloat` on a dots-only capture) and the truthiness
tests the code uses (`if (x)`, where `0`, `NaN` and `undefined` are falsy)
are modelled by the `JsVal` type.
-/

/-- JavaScript character class `\s` restricted to the ASCII whitespace that
can occur in trace text. -/
def isJsSpace (c : Char) : Bool :=
  c = ' ' || c = '\t' || c = '\n' || c = '\r' || c = '\x0b' || c = '\x0c'

/-- JavaScript character class `\S`. -/
def isJsNonSpace (c : Char) : Bool := !isJsSpace c

/-- JavaScript character class `\d`. -/
def isJsDigit (c : Char) : Bool := '0' ≤ c && c ≤ '9'

/-- JavaScript character class `[0-9.]` (the capture class of every pattern). -/
def isDigitDot (c : Char) : Bool := isJsDigit c || c = '.'

/-- JavaScript character class `\w`. -/
def isJsWord (c : Char) : Bool :=
  ('a' ≤ c && c ≤ 'z') || ('A' ≤ c && c ≤ 'Z') || isJsDigit c || c = '_'

/-- JavaScript `.` without the `s` flag: any character except a line
terminator. -/
def isJsAny (c : Char) : Bool := !(c = '\n' || c = '\r')

/-- One token of a pattern in the regex fragment used by the source: a literal
character, a greedy one-or-more class (`\S+`, `\s+`, `\d+`, `\.+`, `\w+`), a
greedy (`.*`) or lazy (`.*?`) zero-or-more class, the unique capturing group
`([0-9.]+)`, or the `$` end-of-input anchor (which appears mid-pattern in the
broken regex literals). -/
inductive Tok where
  | lit (c : Char)
  | plus (p : Char → Bool)
  | starG (p : Char → Bool)
  | starL (p : Char → Bool)
  | cap
  | endA

/-- Length of the maximal run of characters satisfying `p` at the head of the
input (the most a quantified class can consume). -/
def charRun (p : Char → Bool) : List Char → Nat
  | [] => 0
  | c :: s => if p c then charRun p s + 1 else 0

/-- Candidate consumption lengths for a greedy quantifier with maximal run
`n`, longest first: `[n, n-1, ..., 1]`. -/
def descRange : Nat → List Nat
  | 0 => []
  | n + 1 => (n + 1) :: descRange n

/-- First successful result of `f` over the candidate list (the backtracking
search order). -/
def firstSome (f : Nat → Option α) : List Nat → Option α
  | [] => none
  | n :: ns =>
    match f n with
    | some a => some a
    | none => firstSome f ns

/-- Match a token list against the input at the current position, returning
`some` of the group-1 capture on success (`[]` if the capture was not
reached).  Backtracking order follows the JavaScript engine: greedy
quantifiers try the longest consumption first, lazy ones the shortest;
`$` succeeds only at the end of the input. -/
def matchToks : List Tok → List Char → Option (List Char)
  | [], _ => some []
  | Tok.lit _ :: _, [] => none
  | Tok.lit c :: ts, x :: s => if x = c then matchToks ts s else none
  | Tok.endA :: ts, s => if s.isEmpty then matchToks ts [] else none
  | Tok.plus p :: ts, s =>
    firstSome (fun n => matchToks ts (s.drop n)) (descRange (charRun p s))
  | Tok.starG p :: ts, s =>
    firstSome (fun n => matchToks ts (s.drop n)) (descRange (charRun p s) ++ [0])
  | Tok.starL p :: ts, s =>
    firstSome (fun n => matchToks ts (s.drop n)) (List.range (charRun p s + 1))
  | Tok.cap :: ts, s =>
    firstSome (fun n => (matchToks ts (s.drop n)).map fun _ => s.take n)
      (descRange (charRun isDigitDot s))

/-- `text.match(re)` for a pattern of the embedded fragment: try each start
position left to right and return the group-1 capture of the first position
where the pattern matches, `none` when the pattern matches nowhere. -/
def reMatch (toks : List Tok) : List Char → Option (List Char)
  | [] => matchToks toks []
  | x :: s' =>
    match matchToks toks (x :: s') with
    | some c => some c
    | none => reMatch toks s'

/-- A JavaScript number-or-absent value as the metrics record stores it:
an absent key reads as `undefined`, and `parseFloat` can produce `NaN`. -/
inductive JsVal where
  | undef
  | nan
  | num (q : ℚ)
deriving DecidableEq

/-- JavaScript truthiness of a metrics-record read: `undefined`, `NaN` and
`0` are falsy. -/
def truthy : JsVal → Bool
  | JsVal.undef => false
  | JsVal.nan => false
  | JsVal.num q => q ≠ 0

/-- Numeric value of a decimal digit. -/
def digitVal (c : Char) : ℕ := c.toNat - '0'.toNat

/-- Value of a digit string read left to right. -/
def digitsVal (cs : List Char) : ℕ := cs.foldl (fun a c => 10 * a + digitVal c) 0

/-- JavaScript `parseFloat` restricted to `[0-9.]+` captures: digits, then an
optional `.` and further digits; a second `.` stops the parse; a string with
no digit before the parse stops is `NaN`.  The value is modelled as the exact
decimal rational. -/
def parseFloatQ (cs : List Char) : JsVal :=
  let intPart := cs.takeWhile isJsDigit
  let rest := cs.drop intPart.length
  match rest with
  | '.' :: r2 =>
    let frac := r2.takeWhile isJsDigit
    if intPart.isEmpty && frac.isEmpty then JsVal.nan
    else JsVal.num ((digitsVal intPart : ℚ) + (digitsVal frac : ℚ) / (10 : ℚ) ^ frac.length)
  | _ => if intPart.isEmpty then JsVal.nan else JsVal.num (digitsVal intPart : ℚ)

/-- `parseFloat(x.toFixed(3))`: round to 3 decimal places.
`Number.prototype.toFixed` renders a negative number as `-` followed by the
rendering of its magnitude, and rounds ties to the larger digit string, so
ties round away from zero. -/
def roundTo3 (q : ℚ) : ℚ :=
  if q < 0 then -(((⌊-q * 1000 + 1 / 2⌋ : ℤ) : ℚ) / 1000)
  else ((⌊q * 1000 + 1 / 2⌋ : ℤ) : ℚ) / 1000

/-- The `normalizeTimestamp` arrow function of `processTraceData`
(src/measure_performance.ts): a timestamp above 1,000,000 is treated as
microseconds and converted to seconds with 3-decimal rounding, anything else
is returned unchanged. -/
def normalizeTimestamp (timestamp : ℚ) : ℚ :=
  if timestamp > 1000000 then roundTo3 (timestamp / 1000000) else timestamp

/-- `normalizeTimestamp` lifted to stored record values the way the guarded
call sites apply it (a non-numeric value is left untouched; the call sites
only reach it behind a truthiness guard anyway). -/
def normalizeVal : JsVal → JsVal
  | JsVal.num q => JsVal.num (normalizeTimestamp q)
  | v => v


/-! ## The patterns built by `processTraceData` (src/measure_performance.ts) -/

/-- A literal string spliced into a pattern (marker names and the package id
contain no regex metacharacters). -/
def lits (s : String) : List Tok := s.toList.map Tok.lit

/-- `.*` -/
def anyStarG : Tok := Tok.starG isJsAny

/-- `.*?` -/
def anyStarL : Tok := Tok.starL isJsAny

/-- The atrace line head shared by the structured patterns:
`\S+\s+\(\s*\d+\)\s+\[\d+\]\s+\.+\s+([0-9.]+):`. -/
def atraceHead : List Tok :=
  [Tok.plus isJsNonSpace, Tok.plus isJsSpace, Tok.lit '(',
   Tok.starG isJsSpace, Tok.plus isJsDigit, Tok.lit ')',
   Tok.plus isJsSpace, Tok.lit '[', Tok.plus isJsDigit, Tok.lit ']',
   Tok.plus isJsSpace, Tok.plus (fun c => c = '.'), Tok.plus isJsSpace,
   Tok.cap, Tok.lit ':']

/-- `\s+tracing_mark_write:` following the captured timestamp. -/
def tmw : List Tok := Tok.plus isJsSpace :: lits "tracing_mark_write:"

/-- The seven regex literals among `appStartPatterns` (and the four lifecycle
patterns) are written as `/.../` literals, not template strings, so
`${config.appPackage}` is NOT interpolated: the `$` is an end-of-input
anchor and `{config.appPackage}` is required literal text after it.  This is
their common tail. -/
def deadTail : List Tok := Tok.endA :: lits "\x7bconfig.appPackage\x7d"

/-- The ordered `appStartPatterns` list (src/measure_performance.ts lines
2472-2507), most specific first; the last seven are the dead regex
literals. -/
def appStartPatterns (pkg : String) : List (List Tok) :=
  [ atraceHead ++ tmw ++ [Tok.plus isJsSpace, Tok.lit 'B', Tok.lit '|',
      Tok.plus isJsDigit, Tok.lit '|'] ++ lits "Startup",
    atraceHead ++ tmw ++ anyStarG :: lits "APPLICATION_START",
    atraceHead ++ tmw ++ anyStarG :: lits "ActivityManager" ++
      anyStarG :: lits "START" ++ anyStarL :: lits pkg,
    atraceHead ++ tmw ++ anyStarG :: lits "ActivityTaskManager" ++
      anyStarG :: lits "START" ++ anyStarL :: lits pkg,
    atraceHead ++ tmw ++ anyStarG :: lits "Displayed" ++ anyStarL :: lits pkg,
    atraceHead ++ tmw ++ anyStarG :: lits "am_create_activity" ++ anyStarL :: lits pkg,
    atraceHead ++ tmw ++ anyStarG :: lits "am_on_resume_called" ++ anyStarL :: lits pkg,
    atraceHead ++ tmw ++ anyStarG :: lits "am_proc_start" ++ anyStarL :: lits pkg,
    Tok.cap :: anyStarG :: lits "ActivityManager" ++ anyStarG :: lits "START" ++
      anyStarL :: deadTail,
    Tok.cap :: anyStarG :: lits "ActivityTaskManager" ++ anyStarG :: lits "START" ++
      anyStarL :: deadTail,
    Tok.cap :: anyStarG :: lits "ActivityManager" ++ anyStarG :: lits "Displayed" ++
      anyStarL :: deadTail,
    Tok.cap :: anyStarG :: lits "am_create_activity" ++ anyStarL :: deadTail,
    Tok.cap :: anyStarG :: lits "am_on_resume_called" ++ anyStarL :: deadTail,
    Tok.cap :: anyStarG :: lits "am_proc_start" ++ anyStarL :: deadTail,
    Tok.cap :: anyStarG :: lits "am_create_task" ++ anyStarL :: deadTail ]

/-- First fallback when no app-start pattern matched: the first line (in
atrace format) mentioning the package id,
`\S+\s+\(\s*\d+\)\s+\[\d+\]\s+\.+\s+([0-9.]+):\s+.*${pkg}`. -/
def appFirstMentionPat (pkg : String) : List Tok :=
  atraceHead ++ Tok.plus isJsSpace :: anyStarG :: lits pkg

/-- Second fallback: the first line carrying any atrace monotonic
timestamp. -/
def firstTimestampPat : List Tok := atraceHead

/-- The four lifecycle-milestone patterns (lines 2553-2564) are regex
literals, e.g. `/([0-9.]+).*performCreate.*?${config.appPackage}/`, so they
end in the dead un-interpolated tail. -/
def lifecyclePat (evt : String) : List Tok :=
  Tok.cap :: anyStarG :: lits evt ++ anyStarL :: deadTail

/-- The ordered fallback pattern list for one custom marker (lines
2574-2589).  Patterns 8 and 9 (`TEST_EVENT_MANUAL` / `test_event_manual`)
do not mention the marker at all. -/
def markerPatterns (mk : String) : List (List Tok) :=
  [ atraceHead ++ tmw ++ [Tok.plus isJsSpace, Tok.plus isJsWord, Tok.lit '|',
      Tok.plus isJsDigit, Tok.lit '|'] ++ lits mk,
    atraceHead ++ tmw ++ anyStarG :: lits mk,
    Tok.cap :: anyStarG :: lits "PerfettoTracer" ++ anyStarG :: lits "beginTrace" ++
      anyStarG :: lits mk,
    Tok.cap :: anyStarG :: lits "PerfettoTracer" ++ anyStarG :: lits mk,
    Tok.cap :: anyStarG :: lits "beginTrace" ++ anyStarG :: lits mk,
    Tok.cap :: anyStarG :: lits mk ++ anyStarG :: lits "begin",
    Tok.cap :: anyStarG :: lits "begin" ++ anyStarG :: lits mk,
    Tok.cap :: anyStarG :: lits "TEST_EVENT_MANUAL",
    Tok.cap :: anyStarG :: lits "test_event_manual",
    Tok.cap :: anyStarG :: lits mk ]

/-- The ordered fallback pattern list used for each side of a paired marker
(lines 2602-2624; the start and end lists have the same shape with the
respective name spliced in). -/
def pairPatterns (nm : String) : List (List Tok) :=
  [ atraceHead ++ tmw ++ [Tok.plus isJsSpace, Tok.plus isJsWord, Tok.lit '|',
      Tok.plus isJsDigit, Tok.lit '|'] ++ lits nm,
    atraceHead ++ tmw ++ anyStarG :: lits nm,
    Tok.cap :: anyStarG :: lits "PerfettoTracer" ++ anyStarG :: lits "beginTrace" ++
      anyStarG :: lits nm,
    Tok.cap :: anyStarG :: lits "PerfettoTracer" ++ anyStarG :: lits nm,
    Tok.cap :: anyStarG :: lits nm ]

/-! ## The metrics record -/

/-- The `metrics: Record<string, number>` object: an association list with
in-place update. -/
def Metrics : Type := List (String × JsVal)

/-- `metrics[k] = v`. -/
def setM : Metrics → String → JsVal → Metrics
  | [], k, v => [(k, v)]
  | (k', v') :: rest, k, v =>
    if k' = k then (k, v) :: rest else (k', v') :: setM rest k v

/-- Reading `metrics[k]` (an absent key reads as `undefined`). -/
def getM : Metrics → String → JsVal
  | [], _ => JsVal.undef
  | (k', v) :: rest, k => if k' = k then v else getM rest k

/-- JavaScript subtraction on stored values (only reached on truthy numeric
operands; anything non-numeric propagates `NaN`). -/
def jsSub : JsVal → JsVal → JsVal
  | JsVal.num a, JsVal.num b => JsVal.num (a - b)
  | _, _ => JsVal.nan

/-- `parseFloat(v.toFixed(3))` on a stored value. -/
def roundVal : JsVal → JsVal
  | JsVal.num q => JsVal.num (roundTo3 q)
  | v => v

/-! ## The extractor (`processTraceData`, lines 2458-2792, pure part) -/

/-- `{start, end, name}` of a paired-marker spec (`stop` embeds the source's
`end` field, which is a reserved word in Lean). -/
structure PairedMarker where
  start : String
  stop : String
  name : String

/-- The extraction configuration the pure core consumes. -/
structure TraceConfig where
  appPackage : String
  customMarkers : List String
  pairedMarkers : List PairedMarker

/-- First pattern in the ordered list that matches anywhere in the text wins
(the `for (const pattern of patterns) { ... break }` loops). -/
def firstPatternMatch (pats : List (List Tok)) (trace : List Char) : Option (List Char) :=
  match pats with
  | [] => none
  | p :: ps =>
    match reMatch p trace with
    | some c => some c
    | none => firstPatternMatch ps trace

/-- The value of the `appStartTimestamp` local variable after the pattern
loop and the two fallbacks (lines 2471-2543).  It starts at `0`; the loop
breaks on the first matching pattern regardless of the parsed value; each
fallback runs only when the current value is falsy. -/
def rawAppStart (trace : List Char) (pkg : String) : JsVal :=
  let a0 :=
    match firstPatternMatch (appStartPatterns pkg) trace with
    | some c => parseFloatQ c
    | none => JsVal.num 0
  let a1 :=
    if truthy a0 then a0
    else
      match reMatch (appFirstMentionPat pkg) trace with
      | some c => parseFloatQ c
      | none => a0
  if truthy a1 then a1
  else
    match reMatch firstTimestampPat trace with
    | some c => parseFloatQ c
    | none => a1

/-- The parsed result of one lifecycle-milestone search (lines 2553-2564). -/
def rawMilestone (trace : List Char) (evt : String) : Option JsVal :=
  (reMatch (lifecyclePat evt) trace).map parseFloatQ

/-- The parsed result of the fallback-pattern loop for one custom marker. -/
def rawMarker (trace : List Char) (mk : String) : Option JsVal :=
  (firstPatternMatch (markerPatterns mk) trace).map parseFloatQ

/-- The parsed result of the fallback-pattern loop for one side of a paired
marker. -/
def rawPairSide (trace : List Char) (nm : String) : Option JsVal :=
  (firstPatternMatch (pairPatterns nm) trace).map parseFloatQ

/-- Collection stage (lines 2471-2659): anchor, lifecycle milestones, custom
markers, paired markers and their durations, all at raw (pre-normalization)
timestamps. -/
def collectStage (cfg : TraceConfig) (trace : List Char) : Metrics :=
  let m := setM [] "appStartTimestamp" (rawAppStart trace cfg.appPackage)
  let m := match rawMilestone trace "performCreate" with
    | some v => setM m "activityCreateTimestamp" v
    | none => m
  let m := match rawMilestone trace "performStart" with
    | some v => setM m "activityStartTimestamp" v
    | none => m
  let m := match rawMilestone trace "performResume" with
    | some v => setM m "activityResumeTimestamp" v
    | none => m
  let m := match rawMilestone trace "reportFullyDrawn" with
    | some v => setM m "activityDrawnTimestamp" v
    | none => m
  let m := cfg.customMarkers.foldl
    (fun acc mk =>
      match rawMarker trace mk with
      | some v => setM acc (mk ++ "Timestamp") v
      | none => acc) m
  cfg.pairedMarkers.foldl
    (fun acc p =>
      let s := rawPairSide trace p.start
      let e := rawPairSide trace p.stop
      let acc := match s with
        | some v => setM acc (p.start ++ "Timestamp") v
        | none => acc
      let acc := match e with
        | some v => setM acc (p.stop ++ "Timestamp") v
        | none => acc
      let sv := match s with | some v => v | none => JsVal.num 0
      let ev := match e with | some v => v | none => JsVal.num 0
      if truthy sv && truthy ev then
        setM acc (p.name ++ "Duration") (jsSub ev sv)
      else acc) m

/-- One statement of the relative-offset stage:
`if (metrics[srcKey]) metrics[dstKey] = metrics[srcKey] - anchor`. -/
def condSub (m : Metrics) (srcKey dstKey : String) (anchor : JsVal) : Metrics :=
  if truthy (getM m srcKey) then setM m dstKey (jsSub (getM m srcKey) anchor) else m

/-- Relative-offset stage (lines 2661-2698): runs only when the
`appStartTimestamp` local variable is truthy, and subtracts the RAW anchor
from the RAW stored timestamps. -/
def relativeStage (cfg : TraceConfig) (trace : List Char) (m : Metrics) : Metrics :=
  let anchor := rawAppStart trace cfg.appPackage
  if truthy anchor then
    let m := condSub m "activityCreateTimestamp" "timeToCreate" anchor
    let m := condSub m "activityStartTimestamp" "timeToStart" anchor
    let m := condSub m "activityResumeTimestamp" "timeToResume" anchor
    let m := condSub m "activityDrawnTimestamp" "timeToFullyDrawn" anchor
    let m := cfg.customMarkers.foldl
      (fun acc mk => condSub acc (mk ++ "Timestamp") ("timeTo" ++ mk) anchor) m
    cfg.pairedMarkers.foldl
      (fun acc p =>
        condSub (condSub acc (p.start ++ "Timestamp") ("timeTo" ++ p.start) anchor)
          (p.stop ++ "Timestamp") ("timeTo" ++ p.stop) anchor) m
  else m

/-- Normalize `metrics[k]` in place behind the truthiness guard the code
uses. -/
def normKey (m : Metrics) (k : String) : Metrics :=
  if truthy (getM m k) then setM m k (normalizeVal (getM m k)) else m

/-- Round `metrics[k]` to 3 decimals in place behind the truthiness guard. -/
def roundKey (m : Metrics) (k : String) : Metrics :=
  if truthy (getM m k) then setM m k (roundVal (getM m k)) else m

/-- Normalization stage (lines 2700-2782): absolute timestamps get unit
normalization; custom-marker and paired relative keys and durations get only
3-decimal rounding; the lifecycle `timeTo*` keys are not touched at all. -/
def normalizeStage (cfg : TraceConfig) (m : Metrics) : Metrics :=
  let m := normKey m "appStartTimestamp"
  let m := normKey m "activityCreateTimestamp"
  let m := normKey m "activityStartTimestamp"
  let m := normKey m "activityResumeTimestamp"
  let m := normKey m "activityDrawnTimestamp"
  let m := cfg.customMarkers.foldl
    (fun acc mk => roundKey (normKey acc (mk ++ "Timestamp")) ("timeTo" ++ mk)) m
  cfg.pairedMarkers.foldl
    (fun acc p =>
      let acc := normKey acc (p.start ++ "Timestamp")
      let acc := normKey acc (p.stop ++ "Timestamp")
      let acc := roundKey acc (p.name ++ "Duration")
      let acc := roundKey acc ("timeTo" ++ p.start)
      roundKey acc ("timeTo" ++ p.stop)) m

/-- The pure core of `processTraceData` (lines 2458-2792): one raw trace
capture in, one metrics record out. -/
def processTraceData (cfg : TraceConfig) (trace : List Char) : Metrics :=
  normalizeStage cfg (relativeStage cfg trace (collectStage cfg trace))

/-! ## The summary side
`generateSummaryReport`/`addAverageToSummary` (src/measure_performance.ts
lines 476-605) and `calculateStats` (lines 3150-3175). -/

/-- Three-digit zero-padded fraction part. -/
def pad3 (k : ℕ) : String :=
  if k < 10 then "00" ++ toString k
  else if k < 100 then "0" ++ toString k
  else toString k

/-- `x.toFixed(3)` as a string (decimal-exact model). -/
def fixed3String (q : ℚ) : String :=
  let sign := if q < 0 then "-" else ""
  let x := if q < 0 then -q else q
  let n := (⌊x * 1000 + 1 / 2⌋).toNat
  sign ++ toString (n / 1000) ++ "." ++ pad3 (n % 1000)

/-- Association lookup in the `allMetrics: Record<string, number[]>`
object. -/
def getVals : List (String × List ℚ) → String → Option (List ℚ)
  | [], _ => none
  | (k', vs) :: rest, k => if k' = k then some vs else getVals rest k

/-- `addAverageToSummary` (lines 589-604): returns `content` with one line
appended — the average line when the metric has at least one value, the
explicit `No data available` line otherwise. -/
def addAverageToSummary (content : String) (metrics : List (String × List ℚ))
    (metricName displayName unit : String) : String :=
  match getVals metrics metricName with
  | some values =>
    if values.length > 0 then
      let avg := (values.foldl (fun sum val => sum + val) 0) / (values.length : ℚ)
      content ++ "- " ++ displayName ++ ": " ++ fixed3String avg ++ unit ++
        " (averaged over " ++ toString values.length ++ " runs)\n"
    else content ++ "- " ++ displayName ++ ": No data available\n"
  | none => content ++ "- " ++ displayName ++ ": No data available\n"

/-- The ordered pairs `(markers[i], markers[j])` with `i < j` that the
marker-to-marker loop of `generateSummaryReport` iterates over. -/
def markerPairs : List String → List (String × String)
  | [] => []
  | x :: xs => xs.map (fun y => (x, y)) ++ markerPairs xs

/-- The per-metric section of `generateSummaryReport` (lines 553-579).
JavaScript strings are passed by value: each `addAverageToSummary(content,
...)` statement computes an extended string and DISCARDS it (the return
value is not assigned), so only the four direct `content +=` header appends
take effect. -/
def summaryMetricsSection (allMetrics : List (String × List ℚ))
    (customMarkers : List String) : String :=
  let content := "App startup performance (averaged over successful runs):\n"
  let _ := addAverageToSummary content allMetrics "timeToCreate"
    "Time from intent to performCreate" "s"
  let _ := addAverageToSummary content allMetrics "createToStart"
    "Time from performCreate to performStart" "s"
  let _ := addAverageToSummary content allMetrics "startToResume"
    "Time from performStart to performResume" "s"
  let _ := addAverageToSummary content allMetrics "totalStartupTime"
    "Total startup time (intent to performResume)" "s"
  let _ := addAverageToSummary content allMetrics "timeToFullyDrawn"
    "Total time to fully drawn" "s"
  let content := content ++ "\nCustom marker timings (averaged over successful runs):\n"
  let _ := customMarkers.map fun mk =>
    addAverageToSummary content allMetrics ("timeTo" ++ mk)
      ("Time from app start to " ++ mk) "s"
  let content := content ++ "\nMarker-to-marker timings (averaged over successful runs):\n"
  let _ := (markerPairs customMarkers).map fun m12 =>
    addAverageToSummary content allMetrics (m12.1 ++ "To" ++ m12.2)
      ("Time from " ++ m12.1 ++ " to " ++ m12.2) "s"
  let content := content ++ "\nFrame rendering performance (averaged over successful runs):\n"
  let _ := addAverageToSummary content allMetrics "avgFrameDuration"
    "Average frame duration" "ms"
  let _ := addAverageToSummary content allMetrics "avgFps" "Average FPS" "s"
  let _ := addAverageToSummary content allMetrics "jankyPercentage"
    "Janky frames percentage" "%"
  let _ := addAverageToSummary content allMetrics "severeJankyPercentage"
    "Severe jank percentage" "%"
  content

/-- The `{min, max, avg, median}` record returned by `calculateStats`. -/
structure SummaryStats where
  min : ℚ
  max : ℚ
  avg : ℚ
  median : ℚ
deriving DecidableEq

/-- `calculateStats` (lines 3150-3175): sort ascending (the JavaScript
`[...values].sort((a, b) => a - b)` — embedded as the ascending sorted
permutation), then take the first element, the last element, the arithmetic
mean, and the even/odd median. -/
def calculateStats (values : List ℚ) : SummaryStats :=
  if values.length = 0 then ⟨0, 0, 0, 0⟩
  else
    let sortedValues := List.insertionSort (· ≤ ·) values
    let min := sortedValues.getD 0 0
    let max := sortedValues.getD (sortedValues.length - 1) 0
    let avg := (sortedValues.foldl (fun sum val => sum + val) 0) / (sortedValues.length : ℚ)
    let mid := sortedValues.length / 2
    let median :=
      if sortedValues.length % 2 = 0 then
        (sortedValues.getD (mid - 1) 0 + sortedValues.getD mid 0) / 2
      else sortedValues.getD mid 0
    ⟨min, max, avg, median⟩


/-! ## Record and matcher lemmas -/

theorem getM_setM_same (m : Metrics) (k : String) (v : JsVal) :
    getM (setM m k v) k = v := by
  induction m with
  | nil => simp [setM, getM]
  | cons kv rest ih =>
    by_cases h : kv.1 = k <;> simp [setM, getM, h, ih]

theorem getM_setM_ne (m : Metrics) {k k' : String} (h : k' ≠ k) (v : JsVal) :
    getM (setM m k' v) k = getM m k := by
  induction m with
  | nil => simp [setM, getM, h]
  | cons kv rest ih =>
    obtain ⟨k0, v0⟩ := kv
    by_cases h2 : k0 = k'
    · subst h2
      simp [setM, getM, h]
    · by_cases h3 : k0 = k
      · subst h3
        simp [setM, getM, h2, ih]
      · simp [setM, getM, h2, h3, ih]

theorem firstSome_eq_none {f : ℕ → Option α} (h : ∀ n, f n = none) :
    ∀ l, firstSome f l = none := by
  intro l
  induction l with
  | nil => rfl
  | cons n ns ih => simp [firstSome, h, ih]

/-- Appending tokens in front of a token list that matches nothing gives a
token list that matches nothing. -/
theorem matchToks_cons_none {rest : List Tok}
    (h : ∀ s, matchToks rest s = none) (t : Tok) (s : List Char) :
    matchToks (t :: rest) s = none := by
  cases t with
  | lit c =>
    cases s with
    | nil => rfl
    | cons x s => simp [matchToks, h]
  | plus p => simp [matchToks, firstSome_eq_none (fun n => h _)]
  | starG p => simp [matchToks, firstSome_eq_none (fun n => h _)]
  | starL p => simp [matchToks, firstSome_eq_none (fun n => h _)]
  | cap =>
    have : ∀ n : ℕ, (matchToks rest (s.drop n)).map (fun _ => s.take n) = none := by
      intro n; simp [h]
    simp [matchToks, firstSome_eq_none this]
  | endA =>
    by_cases he : s.isEmpty <;> simp [matchToks, he, h]

theorem matchToks_append_none (pre : List Tok) {rest : List Tok}
    (h : ∀ s, matchToks rest s = none) (s : List Char) :
    matchToks (pre ++ rest) s = none := by
  induction pre generalizing s with
  | nil => simpa using h s
  | cons t ts ih => exact matchToks_cons_none (fun s' => ih s') t s

theorem reMatch_eq_none {toks : List Tok}
    (h : ∀ s, matchToks toks s = none) (s : List Char) :
    reMatch toks s = none := by
  induction s with
  | nil => simpa [reMatch] using h []
  | cons x s ih => simp [reMatch, h, ih]

/-- `deadTail` starts with the `$` anchor followed by required literal text,
so no token list ending in it can match any input. -/
theorem matchToks_deadTail_none (s : List Char) : matchToks deadTail s = none := by
  cases s <;> simp [deadTail, matchToks, lits]

theorem matchToks_to_deadTail_none (pre : List Tok) (s : List Char) :
    matchToks (pre ++ deadTail) s = none :=
  matchToks_append_none pre matchToks_deadTail_none s

/-- The four lifecycle-milestone regex literals never match: their
un-interpolated `${config.appPackage}` tail demands characters after the end
of the input. -/
theorem reMatch_lifecyclePat_none (evt : String) (s : List Char) :
    reMatch (lifecyclePat evt) s = none := by
  have h : ∀ s', matchToks (lifecyclePat evt) s' = none := by
    intro s'
    have : lifecyclePat evt =
        (Tok.cap :: anyStarG :: lits evt ++ [anyStarL]) ++ deadTail := by
      simp [lifecyclePat]
    rw [this]
    exact matchToks_to_deadTail_none _ s'
  exact reMatch_eq_none h s

theorem rawMilestone_none (trace : List Char) (evt : String) :
    rawMilestone trace evt = none := by
  simp [rawMilestone, reMatch_lifecyclePat_none]

/-- Unit normalization cannot turn a nonzero timestamp into zero or a zero
into nonzero. -/
theorem normalizeTimestamp_eq_zero_iff (q : ℚ) :
    normalizeTimestamp q = 0 ↔ q = 0 := by
  unfold normalizeTimestamp
  by_cases h : q > 1000000
  · rw [if_pos h]
    have hx : (1 : ℚ) < q / 1000000 := by
      rw [lt_div_iff₀ (by norm_num : (0:ℚ) < 1000000)]; linarith
    have hfl : (1000 : ℤ) ≤ ⌊q / 1000000 * 1000 + 1 / 2⌋ := by
      apply Int.le_floor.2
      push_cast
      nlinarith
    have hnneg : ¬ q / 1000000 < 0 := by intro hc; linarith
    unfold roundTo3
    rw [if_neg hnneg]
    constructor
    · intro hr
      exfalso
      rw [div_eq_zero_iff] at hr
      rcases hr with h4 | h4
      · have h5 : (1000 : ℚ) ≤ ((⌊q / 1000000 * 1000 + 1 / 2⌋ : ℤ) : ℚ) := by
          exact_mod_cast hfl
        rw [h4] at h5; norm_num at h5
      · norm_num at h4
    · intro hq; exfalso; rw [hq] at h; norm_num at h
  · rw [if_neg h]

/-! ## Sorted-list helpers for `calculateStats` -/

theorem foldl_add_eq_sum (q : ℚ) (l : List ℚ) :
    l.foldl (fun sum val => sum + val) q = q + l.sum := by
  induction l generalizing q with
  | nil => simp
  | cons a t ih => simp [ih, add_assoc]

theorem getD_zero_mem {l : List ℚ} (h : l ≠ []) : l.getD 0 0 ∈ l := by
  cases l with
  | nil => exact absurd rfl h
  | cons a t => simp [List.getD]

theorem sorted_getD_zero_le {l : List ℚ} (hs : List.Sorted (· ≤ ·) l)
    {x : ℚ} (hx : x ∈ l) : l.getD 0 0 ≤ x := by
  cases l with
  | nil => simp at hx
  | cons a t =>
    rcases List.mem_cons.1 hx with rfl | hxt
    · simp [List.getD]
    · simpa [List.getD] using (List.sorted_cons.1 hs).1 x hxt

theorem getD_last_mem {l : List ℚ} (h : l ≠ []) :
    l.getD (l.length - 1) 0 ∈ l := by
  induction l with
  | nil => exact absurd rfl h
  | cons a t ih =>
    cases t with
    | nil => simp [List.getD]
    | cons b u =>
      have ht : (b :: u) ≠ [] := by simp
      have : (a :: b :: u).getD ((a :: b :: u).length - 1) 0 =
          (b :: u).getD ((b :: u).length - 1) 0 := by
        simp [List.getD_cons_succ, List.length_cons]
      rw [this]
      exact List.mem_cons_of_mem a (ih ht)

theorem sorted_le_getD_last {l : List ℚ} (hs : List.Sorted (· ≤ ·) l)
    {x : ℚ} (hx : x ∈ l) : x ≤ l.getD (l.length - 1) 0 := by
  induction l with
  | nil => simp at hx
  | cons a t ih =>
    cases t with
    | nil =>
      rcases List.mem_cons.1 hx with rfl | hxt
      · simp [List.getD]
      · simp at hxt
    | cons b u =>
      have hstep : (a :: b :: u).getD ((a :: b :: u).length - 1) 0 =
          (b :: u).getD ((b :: u).length - 1) 0 := by
        simp [List.getD_cons_succ, List.length_cons]
      rw [hstep]
      have hs' := (List.sorted_cons.1 hs).2
      rcases List.mem_cons.1 hx with rfl | hxt
      · have hmem : (b :: u).getD ((b :: u).length - 1) 0 ∈ b :: u :=
          getD_last_mem (by simp)
        exact le_trans ((List.sorted_cons.1 hs).1 _ hmem) le_rfl
      · exact ih hs' hxt

/-! ## Claim theorems -/

/-- C8: every collected absolute timestamp above 1,000,000 is treated as
microseconds and divided by 1,000,000 (rounded to 3 decimals), anything else
is left unchanged; in particular 1500000 normalizes to 1.5 seconds. -/
theorem normalizeTimestamp_spec (q : ℚ) :
    (q > 1000000 → normalizeTimestamp q = roundTo3 (q / 1000000)) ∧
    (¬ q > 1000000 → normalizeTimestamp q = q) ∧
    normalizeTimestamp 1500000 = 3 / 2 := by
  refine ⟨fun h => ?_, fun h => ?_, by decide!⟩
  · unfold normalizeTimestamp; rw [if_pos h]
  · unfold normalizeTimestamp; rw [if_neg h]

theorem normalizeTimestamp_spec_witness :
    (1500000 : ℚ) > 1000000 ∧
    normalizeTimestamp 1500000 = roundTo3 (1500000 / 1000000) ∧
    normalizeTimestamp 500 = 500 :=
  ⟨by norm_num, (normalizeTimestamp_spec 1500000).1 (by norm_num),
    (normalizeTimestamp_spec 500).2.1 (by norm_num)⟩

/-- C9: for a non-empty value list, `calculateStats` returns the true
minimum and maximum, the arithmetic mean, and the standard even/odd median
of the ascending sorted values; in particular the median of `[1, 2, 3]` is
`2` and of `[1, 2, 3, 4]` is `2.5`. -/
theorem calculateStats_spec (values : List ℚ) (h : values ≠ []) :
    ((calculateStats values).min ∈ values ∧
      ∀ x ∈ values, (calculateStats values).min ≤ x) ∧
    ((calculateStats values).max ∈ values ∧
      ∀ x ∈ values, x ≤ (calculateStats values).max) ∧
    (calculateStats values).avg = values.sum / values.length ∧
    (∃ s : List ℚ, s.Perm values ∧ s.Sorted (· ≤ ·) ∧
      (calculateStats values).median =
        (if s.length % 2 = 0 then
          (s.getD (s.length / 2 - 1) 0 + s.getD (s.length / 2) 0) / 2
        else s.getD (s.length / 2) 0)) ∧
    ((calculateStats [1, 2, 3]).median = 2 ∧
      (calculateStats [1, 2, 3, 4]).median = 5 / 2) := by
  have hlen : ¬ values.length = 0 := by simpa [List.length_eq_zero] using h
  have hperm : (List.insertionSort (· ≤ ·) values).Perm values :=
    List.perm_insertionSort _ _
  have hsort : (List.insertionSort (· ≤ ·) values).Sorted (· ≤ ·) :=
    List.sorted_insertionSort _ _
  have hsne : List.insertionSort (· ≤ ·) values ≠ [] := by
    intro hc
    exact h (List.Perm.nil_eq (hc ▸ hperm)).symm
  have hmin : (calculateStats values).min =
      (List.insertionSort (· ≤ ·) values).getD 0 0 := by
    simp [calculateStats, hlen]
  have hmax : (calculateStats values).max =
      (List.insertionSort (· ≤ ·) values).getD
        ((List.insertionSort (· ≤ ·) values).length - 1) 0 := by
    simp [calculateStats, hlen]
  have havg : (calculateStats values).avg =
      ((List.insertionSort (· ≤ ·) values).foldl (fun sum val => sum + val) 0) /
        ((List.insertionSort (· ≤ ·) values).length : ℚ) := by
    simp [calculateStats, hlen]
  have hmed : (calculateStats values).median =
      (if (List.insertionSort (· ≤ ·) values).length % 2 = 0 then
        ((List.insertionSort (· ≤ ·) values).getD
            ((List.insertionSort (· ≤ ·) values).length / 2 - 1) 0 +
          (List.insertionSort (· ≤ ·) values).getD
            ((List.insertionSort (· ≤ ·) values).length / 2) 0) / 2
      else
        (List.insertionSort (· ≤ ·) values).getD
          ((List.insertionSort (· ≤ ·) values).length / 2) 0) := by
    simp [calculateStats, hlen]
  refine ⟨⟨?_, ?_⟩, ⟨?_, ?_⟩, ?_, ?_, by decide!, by decide!⟩
  · rw [hmin]
    exact hperm.subset (getD_zero_mem hsne)
  · intro x hx
    rw [hmin]
    exact sorted_getD_zero_le hsort (hperm.symm.subset hx)
  · rw [hmax]
    exact hperm.subset (getD_last_mem hsne)
  · intro x hx
    rw [hmax]
    exact sorted_le_getD_last hsort (hperm.symm.subset hx)
  · rw [havg, foldl_add_eq_sum, zero_add, hperm.sum_eq, hperm.length_eq]
  · exact ⟨List.insertionSort (· ≤ ·) values, hperm, hsort, hmed⟩

theorem calculateStats_spec_witness :
    (calculateStats [1, 2, 3]).median = 2 ∧
    (calculateStats [1, 2, 3, 4]).median = 5 / 2 :=
  (calculateStats_spec [1, 2, 3] (by simp)).2.2.2.2

/-- C10: for every custom marker name, the fallback pattern list contains
the unconditional `TEST_EVENT_MANUAL` / `test_event_manual` patterns (at
priority above the final generic pattern), which do not mention the marker;
on a trace where `m1` never occurs but a timestamped `TEST_EVENT_MANUAL`
line does, the extractor records `m1Timestamp` with that unrelated line's
timestamp. -/
theorem marker_fallback_test_event (mk : String) :
    (markerPatterns mk)[7]? = some (Tok.cap :: anyStarG :: lits "TEST_EVENT_MANUAL") ∧
    (markerPatterns mk)[8]? = some (Tok.cap :: anyStarG :: lits "test_event_manual") ∧
    (markerPatterns mk)[9]? = some (Tok.cap :: anyStarG :: lits mk) ∧
    getM (processTraceData ⟨"com.example.app", ["m1"], []⟩
        "noise 10.0 TEST_EVENT_MANUAL here".toList) "m1Timestamp" = JsVal.num 10 ∧
    reMatch (Tok.cap :: anyStarG :: lits "m1")
        "noise 10.0 TEST_EVENT_MANUAL here".toList = none :=
  ⟨rfl, rfl, rfl, by decide!, by decide⟩

/-- C4: the per-metric section of the summary report is the same fixed
header-only string for EVERY input: each `addAverageToSummary(content, ...)`
call's appended line (average or `No data available`) is discarded because
the return value is never assigned, so metrics with data never appear and
absent metrics are never marked.  The last two conjuncts show the line the
helper itself would have contributed. -/
theorem summaryMetricsSection_constant (allMetrics : List (String × List ℚ))
    (customMarkers : List String) :
    summaryMetricsSection allMetrics customMarkers =
      "App startup performance (averaged over successful runs):\n\nCustom marker timings (averaged over successful runs):\n\nMarker-to-marker timings (averaged over successful runs):\n\nFrame rendering performance (averaged over successful runs):\n" ∧
    addAverageToSummary "" [("timeToCreate", [1])] "timeToCreate"
        "Time from intent to performCreate" "s" =
      "- Time from intent to performCreate: 1.000s (averaged over 1 runs)\n" ∧
    addAverageToSummary "" [] "timeToCreate"
        "Time from intent to performCreate" "s" =
      "- Time from intent to performCreate: No data available\n" :=
  ⟨rfl, by decide!, by decide!⟩

/-- With no custom or paired markers configured, the extractor's output
record holds only the `appStartTimestamp` key: all four lifecycle searches
use the dead regex literals and can never contribute. -/
theorem processTraceData_nil_shape (trace : List Char) (pkg : String) :
    ∃ v, processTraceData ⟨pkg, [], []⟩ trace = [("appStartTimestamp", v)] := by
  unfold processTraceData collectStage relativeStage normalizeStage
  simp only [rawMilestone_none, List.foldl_nil]
  generalize rawAppStart trace pkg = A
  by_cases hA : truthy A <;>
    simp [hA, normKey, roundKey, getM, setM,
      show truthy JsVal.undef = false from rfl] <;>
    exact ⟨_, rfl⟩

/-- C1: the four lifecycle-milestone searches are regex literals whose
`${config.appPackage}` text is never interpolated (the `$` is an end-of-input
anchor), so NO trace ever yields `activityCreateTimestamp`,
`activityStartTimestamp`, `activityResumeTimestamp` or
`activityDrawnTimestamp` — refuting presence even for traces that do contain
a timestamped `performCreate`/... line for the package. -/
theorem lifecycle_milestones_never_extracted (trace : List Char) (pkg : String) :
    getM (processTraceData ⟨pkg, [], []⟩ trace) "activityCreateTimestamp" = JsVal.undef ∧
    getM (processTraceData ⟨pkg, [], []⟩ trace) "activityStartTimestamp" = JsVal.undef ∧
    getM (processTraceData ⟨pkg, [], []⟩ trace) "activityResumeTimestamp" = JsVal.undef ∧
    getM (processTraceData ⟨pkg, [], []⟩ trace) "activityDrawnTimestamp" = JsVal.undef := by
  obtain ⟨v, hv⟩ := processTraceData_nil_shape trace pkg
  rw [hv]
  refine ⟨?_, ?_, ?_, ?_⟩ <;> simp [getM]

/-- The divergence of C1 made concrete: this trace has a timestamped
`performCreate` line for `com.example.app`, yet the milestone is absent. -/
theorem lifecycle_milestone_failing_input :
    getM (processTraceData ⟨"com.example.app", [], []⟩
        "a ( 1) [0] . 100.5: performCreate com.example.app".toList)
      "activityCreateTimestamp" = JsVal.undef := by
  obtain ⟨v, hv⟩ := processTraceData_nil_shape
    "a ( 1) [0] . 100.5: performCreate com.example.app".toList "com.example.app"
  rw [hv]
  simp [getM]

theorem firstPatternMatch_of_prefix_none {pats : List (List Tok)} {trace : List Char} :
    ∀ {i : ℕ} {p : List Tok} {c : List Char},
      (∀ q ∈ pats.take i, reMatch q trace = none) →
      pats[i]? = some p → reMatch p trace = some c →
      firstPatternMatch pats trace = some c := by
  induction pats with
  | nil => intro i p c _ hp; simp at hp
  | cons q qs ih =>
    intro i p c hnone hp hm
    cases i with
    | zero =>
      simp at hp
      subst hp
      simp [firstPatternMatch, hm]
    | succ j =>
      have hq : reMatch q trace = none := by
        apply hnone
        simp [List.take]
      have hrest : ∀ r ∈ qs.take j, reMatch r trace = none := by
        intro r hr
        exact hnone r (by simp [List.take, hr])
      simp only [firstPatternMatch, hq]
      exact ih hrest (by simpa using hp) hm

theorem firstPatternMatch_of_all_none {pats : List (List Tok)} {trace : List Char}
    (h : ∀ q ∈ pats, reMatch q trace = none) :
    firstPatternMatch pats trace = none := by
  induction pats with
  | nil => rfl
  | cons q qs ih =>
    have hq : reMatch q trace = none := h q (by simp)
    simp only [firstPatternMatch, hq]
    exact ih fun r hr => h r (by simp [hr])

/-- C3: the app-start anchor is resolved by the first pattern of the ordered
`appStartPatterns` list that matches anywhere in the text (pattern priority,
not text position, decides); when no pattern matches, the first-mention
fallback applies, then the first-timestamp fallback, and otherwise the
anchor is `0`. -/
theorem app_start_anchor_resolution (trace : List Char) (pkg : String) :
    (∀ i p c, (∀ q ∈ (appStartPatterns pkg).take i, reMatch q trace = none) →
      (appStartPatterns pkg)[i]? = some p → reMatch p trace = some c →
      truthy (parseFloatQ c) = true → rawAppStart trace pkg = parseFloatQ c) ∧
    ((∀ q ∈ appStartPatterns pkg, reMatch q trace = none) →
      ∀ c, reMatch (appFirstMentionPat pkg) trace = some c →
      truthy (parseFloatQ c) = true → rawAppStart trace pkg = parseFloatQ c) ∧
    ((∀ q ∈ appStartPatterns pkg, reMatch q trace = none) →
      reMatch (appFirstMentionPat pkg) trace = none →
      ∀ c, reMatch firstTimestampPat trace = some c →
      rawAppStart trace pkg = parseFloatQ c) ∧
    ((∀ q ∈ appStartPatterns pkg, reMatch q trace = none) →
      reMatch (appFirstMentionPat pkg) trace = none →
      reMatch firstTimestampPat trace = none →
      rawAppStart trace pkg = JsVal.num 0) := by
  refine ⟨?_, ?_, ?_, ?_⟩
  · intro i p c hnone hp hm ht
    unfold rawAppStart
    rw [firstPatternMatch_of_prefix_none hnone hp hm]
    simp [ht]
  · intro hall c hm ht
    unfold rawAppStart
    rw [firstPatternMatch_of_all_none hall, hm]
    simp [ht, show truthy (JsVal.num 0) = false from by decide!]
  · intro hall h1 c hm
    unfold rawAppStart
    rw [firstPatternMatch_of_all_none hall, h1, hm]
    simp [show truthy (JsVal.num 0) = false from by decide!]
  · intro hall h1 h2
    unfold rawAppStart
    rw [firstPatternMatch_of_all_none hall, h1, h2]
    simp [show truthy (JsVal.num 0) = false from by decide!]

theorem app_start_anchor_resolution_witness :
    rawAppStart
      "b ( 2) [0] . 50.0: tracing_mark_write: Displayed com.app\na ( 1) [0] . 99.9: tracing_mark_write: APPLICATION_START".toList
      "com.app" = JsVal.num (999 / 10) ∧
    reMatch (atraceHead ++ tmw ++ anyStarG :: lits "Displayed" ++ anyStarL :: lits "com.app")
      "b ( 2) [0] . 50.0: tracing_mark_write: Displayed com.app\na ( 1) [0] . 99.9: tracing_mark_write: APPLICATION_START".toList
      = some "50.0".toList := by
  constructor
  · have h := (app_start_anchor_resolution
      "b ( 2) [0] . 50.0: tracing_mark_write: Displayed com.app\na ( 1) [0] . 99.9: tracing_mark_write: APPLICATION_START".toList
      "com.app").1 1
      (atraceHead ++ tmw ++ anyStarG :: lits "APPLICATION_START") "99.9".toList
      (by
        intro q hq
        simp [appStartPatterns, List.take] at hq
        subst hq
        decide)
      rfl (by decide) (by decide!)
    rw [h]
    decide!
  · decide

theorem roundTo3_zero : roundTo3 0 = 0 := by decide!

theorem parseFloatQ_ne_undef (cs : List Char) : parseFloatQ cs ≠ JsVal.undef := by
  simp only [parseFloatQ]
  split
  · split <;> simp
  · split <;> simp

/-- Evaluation of the full pipeline for the configuration with the single
custom marker `m1` and no paired markers, when both the anchor and the
marker resolve to truthy raw timestamps: the absolute keys are
unit-normalized, while the derived `timeTom1` is the RAW difference rounded
to 3 decimals (unit normalization happens after the relative-offset
derivation and is never applied to the derived key). -/
theorem processTrace_m1_eval (trace : List Char) (pkg : String) {a t : ℚ}
    (hA : rawAppStart trace pkg = JsVal.num a) (ha : a ≠ 0)
    (hM : rawMarker trace "m1" = some (JsVal.num t)) (ht : t ≠ 0) :
    getM (processTraceData ⟨pkg, ["m1"], []⟩ trace) "appStartTimestamp"
        = JsVal.num (normalizeTimestamp a) ∧
    getM (processTraceData ⟨pkg, ["m1"], []⟩ trace) "m1Timestamp"
        = JsVal.num (normalizeTimestamp t) ∧
    getM (processTraceData ⟨pkg, ["m1"], []⟩ trace) "timeTom1"
        = JsVal.num (roundTo3 (t - a)) := by
  have hta : truthy (JsVal.num a) = true := by simp [truthy, ha]
  have htt : truthy (JsVal.num t) = true := by simp [truthy, ht]
  have hc : collectStage ⟨pkg, ["m1"], []⟩ trace =
      [("appStartTimestamp", JsVal.num a), ("m1Timestamp", JsVal.num t)] := by
    unfold collectStage
    simp only [rawMilestone_none, List.foldl_cons, List.foldl_nil, hA, hM]
    simp [setM]
  have hr : relativeStage ⟨pkg, ["m1"], []⟩ trace
      [("appStartTimestamp", JsVal.num a), ("m1Timestamp", JsVal.num t)] =
      [("appStartTimestamp", JsVal.num a), ("m1Timestamp", JsVal.num t),
        ("timeTom1", JsVal.num (t - a))] := by
    unfold relativeStage
    rw [hA]
    simp only [hta, if_true, List.foldl_cons, List.foldl_nil,
      show ("m1" ++ "Timestamp" : String) = "m1Timestamp" from rfl,
      show ("timeTo" ++ "m1" : String) = "timeTom1" from rfl]
    simp [condSub, getM, setM, truthy, htt, jsSub, ht]
  have hfinal : processTraceData ⟨pkg, ["m1"], []⟩ trace =
      normalizeStage ⟨pkg, ["m1"], []⟩
        [("appStartTimestamp", JsVal.num a), ("m1Timestamp", JsVal.num t),
          ("timeTom1", JsVal.num (t - a))] := by
    unfold processTraceData
    rw [hc, hr]
  rw [hfinal]
  have n1 : normKey
      [("appStartTimestamp", JsVal.num a), ("m1Timestamp", JsVal.num t),
        ("timeTom1", JsVal.num (t - a))] "appStartTimestamp" =
      [("appStartTimestamp", JsVal.num (normalizeTimestamp a)),
        ("m1Timestamp", JsVal.num t), ("timeTom1", JsVal.num (t - a))] := by
    simp [normKey, getM, setM, truthy, ha, normalizeVal]
  have n2 : ∀ k : String, k ≠ "appStartTimestamp" → k ≠ "m1Timestamp" →
      k ≠ "timeTom1" →
      normKey [("appStartTimestamp", JsVal.num (normalizeTimestamp a)),
        ("m1Timestamp", JsVal.num t), ("timeTom1", JsVal.num (t - a))] k =
      [("appStartTimestamp", JsVal.num (normalizeTimestamp a)),
        ("m1Timestamp", JsVal.num t), ("timeTom1", JsVal.num (t - a))] := by
    intro k h1 h2 h3
    simp [normKey, getM, Ne.symm h1, Ne.symm h2, Ne.symm h3, truthy]
  have n6 : normKey [("appStartTimestamp", JsVal.num (normalizeTimestamp a)),
      ("m1Timestamp", JsVal.num t), ("timeTom1", JsVal.num (t - a))] "m1Timestamp" =
      [("appStartTimestamp", JsVal.num (normalizeTimestamp a)),
        ("m1Timestamp", JsVal.num (normalizeTimestamp t)),
        ("timeTom1", JsVal.num (t - a))] := by
    simp [normKey, getM, setM, truthy, ht, normalizeVal]
  have n7 : roundKey [("appStartTimestamp", JsVal.num (normalizeTimestamp a)),
      ("m1Timestamp", JsVal.num (normalizeTimestamp t)),
      ("timeTom1", JsVal.num (t - a))] "timeTom1" =
      [("appStartTimestamp", JsVal.num (normalizeTimestamp a)),
        ("m1Timestamp", JsVal.num (normalizeTimestamp t)),
        ("timeTom1", JsVal.num (roundTo3 (t - a)))] := by
    by_cases h0 : t - a = 0
    · rw [h0, roundTo3_zero]
      simp [roundKey, getM, truthy]
    · simp [roundKey, getM, setM, truthy, h0, roundVal]
  have hnorm : normalizeStage ⟨pkg, ["m1"], []⟩
      [("appStartTimestamp", JsVal.num a), ("m1Timestamp", JsVal.num t),
        ("timeTom1", JsVal.num (t - a))] =
      [("appStartTimestamp", JsVal.num (normalizeTimestamp a)),
        ("m1Timestamp", JsVal.num (normalizeTimestamp t)),
        ("timeTom1", JsVal.num (roundTo3 (t - a)))] := by
    unfold normalizeStage
    simp only [List.foldl_cons, List.foldl_nil,
      show ("m1" ++ "Timestamp" : String) = "m1Timestamp" from rfl,
      show ("timeTo" ++ "m1" : String) = "timeTom1" from rfl]
    rw [n1, n2 "activityCreateTimestamp" (by decide) (by decide) (by decide),
      n2 "activityStartTimestamp" (by decide) (by decide) (by decide),
      n2 "activityResumeTimestamp" (by decide) (by decide) (by decide),
      n2 "activityDrawnTimestamp" (by decide) (by decide) (by decide),
      n6, n7]
  rw [hnorm]
  refine ⟨?_, ?_, ?_⟩ <;> simp [getM]

/-! ## Per-key tracking lemmas for the pipeline stages -/

theorem getM_ite_setM_ne {c : Prop} [Decidable c] (m : Metrics) {k' k : String}
    (h : k' ≠ k) (v : JsVal) :
    getM (if c then setM m k' v else m) k = getM m k := by
  split
  · exact getM_setM_ne m h v
  · rfl

theorem getM_normKey_ne (m : Metrics) {k' k : String} (h : k' ≠ k) :
    getM (normKey m k') k = getM m k :=
  getM_ite_setM_ne m h _

theorem getM_roundKey_ne (m : Metrics) {k' k : String} (h : k' ≠ k) :
    getM (roundKey m k') k = getM m k :=
  getM_ite_setM_ne m h _

theorem getM_normKey_same (m : Metrics) (k : String) :
    getM (normKey m k) k =
      if truthy (getM m k) then normalizeVal (getM m k) else getM m k := by
  unfold normKey
  split <;> simp [getM_setM_same, *]

theorem getM_roundKey_same (m : Metrics) (k : String) :
    getM (roundKey m k) k =
      if truthy (getM m k) then roundVal (getM m k) else getM m k := by
  unfold roundKey
  split <;> simp [getM_setM_same, *]

theorem jsSub_ne_undef (v w : JsVal) : jsSub v w ≠ JsVal.undef := by
  unfold jsSub
  split <;> simp

theorem truthy_normalizeVal (v : JsVal) : truthy (normalizeVal v) = truthy v := by
  cases v with
  | num q =>
    simp [normalizeVal, truthy, normalizeTimestamp_eq_zero_iff]
  | undef => rfl
  | nan => rfl

theorem truthy_ite_normalizeVal (v : JsVal) :
    truthy (if truthy v then normalizeVal v else v) = truthy v := by
  split <;> simp [truthy_normalizeVal]

/-! ## Stage characterizations for the configuration with custom marker `m1`
and paired marker `{start := "ps", end := "pe", name := "pn"}` -/

theorem collect_appStart (trace : List Char) (pkg : String) :
    getM (collectStage ⟨pkg, ["m1"], [⟨"ps", "pe", "pn"⟩]⟩ trace) "appStartTimestamp"
      = rawAppStart trace pkg := by
  unfold collectStage
  simp only [rawMilestone_none, List.foldl_cons, List.foldl_nil,
    show ("m1" ++ "Timestamp" : String) = "m1Timestamp" from rfl,
    show ("ps" ++ "Timestamp" : String) = "psTimestamp" from rfl,
    show ("pe" ++ "Timestamp" : String) = "peTimestamp" from rfl,
    show ("pn" ++ "Duration" : String) = "pnDuration" from rfl]
  rcases rawMarker trace "m1" with _ | v <;>
    rcases rawPairSide trace "ps" with _ | s <;>
    rcases rawPairSide trace "pe" with _ | e <;>
    (try simp [getM, setM, getM_ite_setM_ne, getM_setM_ne, getM_setM_same]) <;>
    (try (split <;> simp [getM, setM]))

theorem collect_m1Ts (trace : List Char) (pkg : String) :
    getM (collectStage ⟨pkg, ["m1"], [⟨"ps", "pe", "pn"⟩]⟩ trace) "m1Timestamp"
      = (rawMarker trace "m1").getD JsVal.undef := by
  unfold collectStage
  simp only [rawMilestone_none, List.foldl_cons, List.foldl_nil,
    show ("m1" ++ "Timestamp" : String) = "m1Timestamp" from rfl,
    show ("ps" ++ "Timestamp" : String) = "psTimestamp" from rfl,
    show ("pe" ++ "Timestamp" : String) = "peTimestamp" from rfl,
    show ("pn" ++ "Duration" : String) = "pnDuration" from rfl]
  rcases rawMarker trace "m1" with _ | v <;>
    rcases rawPairSide trace "ps" with _ | s <;>
    rcases rawPairSide trace "pe" with _ | e <;>
    (try simp [getM, setM, getM_ite_setM_ne, getM_setM_ne, getM_setM_same]) <;>
    (try (split <;> simp [getM, setM]))

theorem collect_psTs (trace : List Char) (pkg : String) :
    getM (collectStage ⟨pkg, ["m1"], [⟨"ps", "pe", "pn"⟩]⟩ trace) "psTimestamp"
      = (rawPairSide trace "ps").getD JsVal.undef := by
  unfold collectStage
  simp only [rawMilestone_none, List.foldl_cons, List.foldl_nil,
    show ("m1" ++ "Timestamp" : String) = "m1Timestamp" from rfl,
    show ("ps" ++ "Timestamp" : String) = "psTimestamp" from rfl,
    show ("pe" ++ "Timestamp" : String) = "peTimestamp" from rfl,
    show ("pn" ++ "Duration" : String) = "pnDuration" from rfl]
  rcases rawMarker trace "m1" with _ | v <;>
    rcases rawPairSide trace "ps" with _ | s <;>
    rcases rawPairSide trace "pe" with _ | e <;>
    (try simp [getM, setM, getM_ite_setM_ne, getM_setM_ne, getM_setM_same]) <;>
    (try (split <;> simp [getM, setM]))

theorem collect_peTs (trace : List Char) (pkg : String) :
    getM (collectStage ⟨pkg, ["m1"], [⟨"ps", "pe", "pn"⟩]⟩ trace) "peTimestamp"
      = (rawPairSide trace "pe").getD JsVal.undef := by
  unfold collectStage
  simp only [rawMilestone_none, List.foldl_cons, List.foldl_nil,
    show ("m1" ++ "Timestamp" : String) = "m1Timestamp" from rfl,
    show ("ps" ++ "Timestamp" : String) = "psTimestamp" from rfl,
    show ("pe" ++ "Timestamp" : String) = "peTimestamp" from rfl,
    show ("pn" ++ "Duration" : String) = "pnDuration" from rfl]
  rcases rawMarker trace "m1" with _ | v <;>
    rcases rawPairSide trace "ps" with _ | s <;>
    rcases rawPairSide trace "pe" with _ | e <;>
    (try simp [getM, setM, getM_ite_setM_ne, getM_setM_ne, getM_setM_same]) <;>
    (try (split <;> simp [getM, setM]))

theorem collect_pnD (trace : List Char) (pkg : String) :
    getM (collectStage ⟨pkg, ["m1"], [⟨"ps", "pe", "pn"⟩]⟩ trace) "pnDuration"
      = (if (truthy ((rawPairSide trace "ps").getD (JsVal.num 0)) &&
            truthy ((rawPairSide trace "pe").getD (JsVal.num 0))) = true then
          jsSub ((rawPairSide trace "pe").getD (JsVal.num 0))
            ((rawPairSide trace "ps").getD (JsVal.num 0))
        else JsVal.undef) := by
  unfold collectStage
  simp only [rawMilestone_none, List.foldl_cons, List.foldl_nil,
    show ("m1" ++ "Timestamp" : String) = "m1Timestamp" from rfl,
    show ("ps" ++ "Timestamp" : String) = "psTimestamp" from rfl,
    show ("pe" ++ "Timestamp" : String) = "peTimestamp" from rfl,
    show ("pn" ++ "Duration" : String) = "pnDuration" from rfl]
  rcases rawMarker trace "m1" with _ | v <;>
    rcases rawPairSide trace "ps" with _ | s <;>
    rcases rawPairSide trace "pe" with _ | e <;>
    (try simp [getM, setM, getM_ite_setM_ne, getM_setM_ne, getM_setM_same]) <;>
    split <;>
    simp_all [getM, setM, getM_ite_setM_ne, getM_setM_ne, getM_setM_same, truthy]

theorem collect_other (trace : List Char) (pkg : String) {k : String}
    (h1 : k ≠ "appStartTimestamp") (h2 : k ≠ "m1Timestamp")
    (h3 : k ≠ "psTimestamp") (h4 : k ≠ "peTimestamp") (h5 : k ≠ "pnDuration") :
    getM (collectStage ⟨pkg, ["m1"], [⟨"ps", "pe", "pn"⟩]⟩ trace) k = JsVal.undef := by
  unfold collectStage
  simp only [rawMilestone_none, List.foldl_cons, List.foldl_nil,
    show ("m1" ++ "Timestamp" : String) = "m1Timestamp" from rfl,
    show ("ps" ++ "Timestamp" : String) = "psTimestamp" from rfl,
    show ("pe" ++ "Timestamp" : String) = "peTimestamp" from rfl,
    show ("pn" ++ "Duration" : String) = "pnDuration" from rfl]
  rcases rawMarker trace "m1" with _ | v <;>
    rcases rawPairSide trace "ps" with _ | s <;>
    rcases rawPairSide trace "pe" with _ | e <;>
    (try simp [getM, setM, getM_ite_setM_ne, getM_setM_ne, getM_setM_same,
      Ne.symm h1, Ne.symm h2, Ne.symm h3, Ne.symm h4, Ne.symm h5]) <;>
    (try (split <;> simp [getM, setM, Ne.symm h1, Ne.symm h2, Ne.symm h3,
      Ne.symm h4, Ne.symm h5]))

theorem getM_condSub_ne (m : Metrics) (srcKey : String) {dstKey k : String}
    (h : dstKey ≠ k) (anchor : JsVal) :
    getM (condSub m srcKey dstKey anchor) k = getM m k :=
  getM_ite_setM_ne m h _

theorem getM_condSub_same (m : Metrics) (srcKey dstKey : String) (anchor : JsVal) :
    getM (condSub m srcKey dstKey anchor) dstKey =
      if truthy (getM m srcKey) = true then jsSub (getM m srcKey) anchor
      else getM m dstKey := by
  unfold condSub
  split <;> simp [getM_setM_same, *]

/-- Reading any key other than the destination through `condSub` is
transparent; in particular source keys are preserved. -/
theorem getM_condSub_other (m : Metrics) (srcKey : String) {dstKey k : String}
    (h : ¬ dstKey = k) (anchor : JsVal) :
    getM (condSub m srcKey dstKey anchor) k = getM m k :=
  getM_ite_setM_ne m h _

theorem rel_other (trace : List Char) (pkg : String) (m : Metrics) {k : String}
    (h1 : k ≠ "timeToCreate") (h2 : k ≠ "timeToStart") (h3 : k ≠ "timeToResume")
    (h4 : k ≠ "timeToFullyDrawn") (h5 : k ≠ "timeTom1") (h6 : k ≠ "timeTops")
    (h7 : k ≠ "timeTope") :
    getM (relativeStage ⟨pkg, ["m1"], [⟨"ps", "pe", "pn"⟩]⟩ trace m) k = getM m k := by
  unfold relativeStage
  simp only [List.foldl_cons, List.foldl_nil,
    show ("timeTo" ++ "m1" : String) = "timeTom1" from rfl,
    show ("timeTo" ++ "ps" : String) = "timeTops" from rfl,
    show ("timeTo" ++ "pe" : String) = "timeTope" from rfl,
    show ("m1" ++ "Timestamp" : String) = "m1Timestamp" from rfl,
    show ("ps" ++ "Timestamp" : String) = "psTimestamp" from rfl,
    show ("pe" ++ "Timestamp" : String) = "peTimestamp" from rfl]
  split
  · simp [getM_condSub_ne, Ne.symm h1, Ne.symm h2, Ne.symm h3, Ne.symm h4,
      Ne.symm h5, Ne.symm h6, Ne.symm h7]
  · rfl

theorem rel_timeTom1 (trace : List Char) (pkg : String) (m : Metrics) :
    getM (relativeStage ⟨pkg, ["m1"], [⟨"ps", "pe", "pn"⟩]⟩ trace m) "timeTom1" =
      (if truthy (rawAppStart trace pkg) = true then
        (if truthy (getM m "m1Timestamp") = true then
          jsSub (getM m "m1Timestamp") (rawAppStart trace pkg)
        else getM m "timeTom1")
      else getM m "timeTom1") := by
  unfold relativeStage
  simp only [List.foldl_cons, List.foldl_nil,
    show ("timeTo" ++ "m1" : String) = "timeTom1" from rfl,
    show ("timeTo" ++ "ps" : String) = "timeTops" from rfl,
    show ("timeTo" ++ "pe" : String) = "timeTope" from rfl,
    show ("m1" ++ "Timestamp" : String) = "m1Timestamp" from rfl,
    show ("ps" ++ "Timestamp" : String) = "psTimestamp" from rfl,
    show ("pe" ++ "Timestamp" : String) = "peTimestamp" from rfl]
  split
  · simp [getM_condSub_ne, getM_condSub_same, getM_condSub_other]
  · rfl

theorem rel_timeTops (trace : List Char) (pkg : String) (m : Metrics) :
    getM (relativeStage ⟨pkg, ["m1"], [⟨"ps", "pe", "pn"⟩]⟩ trace m) "timeTops" =
      (if truthy (rawAppStart trace pkg) = true then
        (if truthy (getM m "psTimestamp") = true then
          jsSub (getM m "psTimestamp") (rawAppStart trace pkg)
        else getM m "timeTops")
      else getM m "timeTops") := by
  unfold relativeStage
  simp only [List.foldl_cons, List.foldl_nil,
    show ("timeTo" ++ "m1" : String) = "timeTom1" from rfl,
    show ("timeTo" ++ "ps" : String) = "timeTops" from rfl,
    show ("timeTo" ++ "pe" : String) = "timeTope" from rfl,
    show ("m1" ++ "Timestamp" : String) = "m1Timestamp" from rfl,
    show ("ps" ++ "Timestamp" : String) = "psTimestamp" from rfl,
    show ("pe" ++ "Timestamp" : String) = "peTimestamp" from rfl]
  split
  · simp [getM_condSub_ne, getM_condSub_same, getM_condSub_other]
  · rfl

theorem rel_timeTope (trace : List Char) (pkg : String) (m : Metrics) :
    getM (relativeStage ⟨pkg, ["m1"], [⟨"ps", "pe", "pn"⟩]⟩ trace m) "timeTope" =
      (if truthy (rawAppStart trace pkg) = true then
        (if truthy (getM m "peTimestamp") = true then
          jsSub (getM m "peTimestamp") (rawAppStart trace pkg)
        else getM m "timeTope")
      else getM m "timeTope") := by
  unfold relativeStage
  simp only [List.foldl_cons, List.foldl_nil,
    show ("timeTo" ++ "m1" : String) = "timeTom1" from rfl,
    show ("timeTo" ++ "ps" : String) = "timeTops" from rfl,
    show ("timeTo" ++ "pe" : String) = "timeTope" from rfl,
    show ("m1" ++ "Timestamp" : String) = "m1Timestamp" from rfl,
    show ("ps" ++ "Timestamp" : String) = "psTimestamp" from rfl,
    show ("pe" ++ "Timestamp" : String) = "peTimestamp" from rfl]
  split
  · simp [getM_condSub_ne, getM_condSub_same, getM_condSub_other]
  · rfl

theorem norm_appStart (pkg : String) (m : Metrics) :
    getM (normalizeStage ⟨pkg, ["m1"], [⟨"ps", "pe", "pn"⟩]⟩ m) "appStartTimestamp" =
      (if truthy (getM m "appStartTimestamp") = true then
        normalizeVal (getM m "appStartTimestamp")
      else getM m "appStartTimestamp") := by
  unfold normalizeStage
  simp only [List.foldl_cons, List.foldl_nil,
    show ("m1" ++ "Timestamp" : String) = "m1Timestamp" from rfl,
    show ("timeTo" ++ "m1" : String) = "timeTom1" from rfl,
    show ("ps" ++ "Timestamp" : String) = "psTimestamp" from rfl,
    show ("pe" ++ "Timestamp" : String) = "peTimestamp" from rfl,
    show ("pn" ++ "Duration" : String) = "pnDuration" from rfl,
    show ("timeTo" ++ "ps" : String) = "timeTops" from rfl,
    show ("timeTo" ++ "pe" : String) = "timeTope" from rfl]
  simp [getM_normKey_ne, getM_roundKey_ne, getM_normKey_same]

theorem norm_m1Ts (pkg : String) (m : Metrics) :
    getM (normalizeStage ⟨pkg, ["m1"], [⟨"ps", "pe", "pn"⟩]⟩ m) "m1Timestamp" =
      (if truthy (getM m "m1Timestamp") = true then
        normalizeVal (getM m "m1Timestamp")
      else getM m "m1Timestamp") := by
  unfold normalizeStage
  simp only [List.foldl_cons, List.foldl_nil,
    show ("m1" ++ "Timestamp" : String) = "m1Timestamp" from rfl,
    show ("timeTo" ++ "m1" : String) = "timeTom1" from rfl,
    show ("ps" ++ "Timestamp" : String) = "psTimestamp" from rfl,
    show ("pe" ++ "Timestamp" : String) = "peTimestamp" from rfl,
    show ("pn" ++ "Duration" : String) = "pnDuration" from rfl,
    show ("timeTo" ++ "ps" : String) = "timeTops" from rfl,
    show ("timeTo" ++ "pe" : String) = "timeTope" from rfl]
  simp [getM_normKey_ne, getM_roundKey_ne, getM_normKey_same]

theorem norm_psTs (pkg : String) (m : Metrics) :
    getM (normalizeStage ⟨pkg, ["m1"], [⟨"ps", "pe", "pn"⟩]⟩ m) "psTimestamp" =
      (if truthy (getM m "psTimestamp") = true then
        normalizeVal (getM m "psTimestamp")
      else getM m "psTimestamp") := by
  unfold normalizeStage
  simp only [List.foldl_cons, List.foldl_nil,
    show ("m1" ++ "Timestamp" : String) = "m1Timestamp" from rfl,
    show ("timeTo" ++ "m1" : String) = "timeTom1" from rfl,
    show ("ps" ++ "Timestamp" : String) = "psTimestamp" from rfl,
    show ("pe" ++ "Timestamp" : String) = "peTimestamp" from rfl,
    show ("pn" ++ "Duration" : String) = "pnDuration" from rfl,
    show ("timeTo" ++ "ps" : String) = "timeTops" from rfl,
    show ("timeTo" ++ "pe" : String) = "timeTope" from rfl]
  simp [getM_normKey_ne, getM_roundKey_ne, getM_normKey_same]

theorem norm_peTs (pkg : String) (m : Metrics) :
    getM (normalizeStage ⟨pkg, ["m1"], [⟨"ps", "pe", "pn"⟩]⟩ m) "peTimestamp" =
      (if truthy (getM m "peTimestamp") = true then
        normalizeVal (getM m "peTimestamp")
      else getM m "peTimestamp") := by
  unfold normalizeStage
  simp only [List.foldl_cons, List.foldl_nil,
    show ("m1" ++ "Timestamp" : String) = "m1Timestamp" from rfl,
    show ("timeTo" ++ "m1" : String) = "timeTom1" from rfl,
    show ("ps" ++ "Timestamp" : String) = "psTimestamp" from rfl,
    show ("pe" ++ "Timestamp" : String) = "peTimestamp" from rfl,
    show ("pn" ++ "Duration" : String) = "pnDuration" from rfl,
    show ("timeTo" ++ "ps" : String) = "timeTops" from rfl,
    show ("timeTo" ++ "pe" : String) = "timeTope" from rfl]
  simp [getM_normKey_ne, getM_roundKey_ne, getM_normKey_same]

theorem norm_round_key (pkg : String) (m : Metrics) {k : String}
    (hk : k = "timeTom1" ∨ k = "pnDuration" ∨ k = "timeTops" ∨ k = "timeTope") :
    getM (normalizeStage ⟨pkg, ["m1"], [⟨"ps", "pe", "pn"⟩]⟩ m) k =
      (if truthy (getM m k) = true then roundVal (getM m k) else getM m k) := by
  unfold normalizeStage
  simp only [List.foldl_cons, List.foldl_nil,
    show ("m1" ++ "Timestamp" : String) = "m1Timestamp" from rfl,
    show ("timeTo" ++ "m1" : String) = "timeTom1" from rfl,
    show ("ps" ++ "Timestamp" : String) = "psTimestamp" from rfl,
    show ("pe" ++ "Timestamp" : String) = "peTimestamp" from rfl,
    show ("pn" ++ "Duration" : String) = "pnDuration" from rfl,
    show ("timeTo" ++ "ps" : String) = "timeTops" from rfl,
    show ("timeTo" ++ "pe" : String) = "timeTope" from rfl]
  rcases hk with rfl | rfl | rfl | rfl <;>
    simp [getM_normKey_ne, getM_roundKey_ne, getM_roundKey_same]

theorem norm_other (pkg : String) (m : Metrics) {k : String}
    (h1 : k ≠ "appStartTimestamp") (h2 : k ≠ "activityCreateTimestamp")
    (h3 : k ≠ "activityStartTimestamp") (h4 : k ≠ "activityResumeTimestamp")
    (h5 : k ≠ "activityDrawnTimestamp") (h6 : k ≠ "m1Timestamp")
    (h7 : k ≠ "timeTom1") (h8 : k ≠ "psTimestamp") (h9 : k ≠ "peTimestamp")
    (h10 : k ≠ "pnDuration") (h11 : k ≠ "timeTops") (h12 : k ≠ "timeTope") :
    getM (normalizeStage ⟨pkg, ["m1"], [⟨"ps", "pe", "pn"⟩]⟩ m) k = getM m k := by
  unfold normalizeStage
  simp only [List.foldl_cons, List.foldl_nil,
    show ("m1" ++ "Timestamp" : String) = "m1Timestamp" from rfl,
    show ("timeTo" ++ "m1" : String) = "timeTom1" from rfl,
    show ("ps" ++ "Timestamp" : String) = "psTimestamp" from rfl,
    show ("pe" ++ "Timestamp" : String) = "peTimestamp" from rfl,
    show ("pn" ++ "Duration" : String) = "pnDuration" from rfl,
    show ("timeTo" ++ "ps" : String) = "timeTops" from rfl,
    show ("timeTo" ++ "pe" : String) = "timeTope" from rfl]
  simp [getM_normKey_ne, getM_roundKey_ne, Ne.symm h1, Ne.symm h2, Ne.symm h3,
    Ne.symm h4, Ne.symm h5, Ne.symm h6, Ne.symm h7, Ne.symm h8, Ne.symm h9,
    Ne.symm h10, Ne.symm h11, Ne.symm h12]

theorem processTraceData_stages (cfg : TraceConfig) (trace : List Char) :
    processTraceData cfg trace =
      normalizeStage cfg (relativeStage cfg trace (collectStage cfg trace)) := rfl

/-- C6: for the paired marker `{start := "ps", end := "pe", name := "pn"}`,
when both sides resolve to truthy raw timestamps the MetricSet holds
`pnDuration = endTimestamp - startTimestamp` up to the 3-decimal rounding
only (possibly negative); when either side is unresolved (absent, `0` or
`NaN`), no `pnDuration` key is produced. -/
theorem paired_marker_duration (trace : List Char) (pkg : String) :
    (∀ s e : ℚ, rawPairSide trace "ps" = some (JsVal.num s) → s ≠ 0 →
      rawPairSide trace "pe" = some (JsVal.num e) → e ≠ 0 →
      getM (processTraceData ⟨pkg, ["m1"], [⟨"ps", "pe", "pn"⟩]⟩ trace) "pnDuration"
        = JsVal.num (roundTo3 (e - s))) ∧
    ((truthy ((rawPairSide trace "ps").getD (JsVal.num 0)) = false ∨
      truthy ((rawPairSide trace "pe").getD (JsVal.num 0)) = false) →
      getM (processTraceData ⟨pkg, ["m1"], [⟨"ps", "pe", "pn"⟩]⟩ trace) "pnDuration"
        = JsVal.undef) := by
  constructor
  · intro s e hS hs hE he
    rw [processTraceData_stages, norm_round_key pkg _ (Or.inr (Or.inl rfl)),
      rel_other trace pkg _ (by decide) (by decide) (by decide) (by decide)
        (by decide) (by decide) (by decide),
      collect_pnD, hS, hE]
    simp only [Option.getD_some]
    have hcond : (truthy (JsVal.num s) && truthy (JsVal.num e)) = true := by
      simp [truthy, hs, he]
    rw [if_pos hcond]
    by_cases h0 : e - s = 0
    · rw [show jsSub (JsVal.num e) (JsVal.num s) = JsVal.num (e - s) from rfl, h0,
        roundTo3_zero]
      simp [truthy]
    · simp [jsSub, truthy, h0, roundVal]
  · intro hcase
    rw [processTraceData_stages, norm_round_key pkg _ (Or.inr (Or.inl rfl)),
      rel_other trace pkg _ (by decide) (by decide) (by decide) (by decide)
        (by decide) (by decide) (by decide),
      collect_pnD]
    have hfalse : (truthy ((rawPairSide trace "ps").getD (JsVal.num 0)) &&
        truthy ((rawPairSide trace "pe").getD (JsVal.num 0))) = false := by
      rcases hcase with hc | hc <;> simp [hc]
    have hX : (if (truthy ((rawPairSide trace "ps").getD (JsVal.num 0)) &&
          truthy ((rawPairSide trace "pe").getD (JsVal.num 0))) = true then
        jsSub ((rawPairSide trace "pe").getD (JsVal.num 0))
          ((rawPairSide trace "ps").getD (JsVal.num 0))
      else JsVal.undef) = JsVal.undef := by
      rw [hfalse]
      simp
    rw [hX]
    rfl

theorem paired_marker_duration_witness :
    getM (processTraceData ⟨"com.app", ["m1"], [⟨"ps", "pe", "pn"⟩]⟩
        "a ( 1) [0] . 3.5: tracing_mark_write: B|1|ps\nb ( 1) [0] . 2.0: tracing_mark_write: B|2|pe".toList)
      "pnDuration" = JsVal.num (roundTo3 (2 - 7 / 2)) ∧
    JsVal.num (roundTo3 ((2 : ℚ) - 7 / 2)) = JsVal.num (-3 / 2) := by
  constructor
  · exact (paired_marker_duration
      "a ( 1) [0] . 3.5: tracing_mark_write: B|1|ps\nb ( 1) [0] . 2.0: tracing_mark_write: B|2|pe".toList
      "com.app").1 (7 / 2) 2 (by decide!) (by norm_num) (by decide!) (by norm_num)
  · decide!

theorem rel_noanchor (cfg : TraceConfig) (trace : List Char) (m : Metrics)
    (h : truthy (rawAppStart trace cfg.appPackage) = false) :
    relativeStage cfg trace m = m := by
  unfold relativeStage
  rw [if_neg (by simp [h])]

theorem roundVal_eq_undef_iff (v : JsVal) : roundVal v = JsVal.undef ↔ v = JsVal.undef := by
  cases v <;> simp [roundVal]

theorem truthy_getD_zero_undef (o : Option JsVal) :
    truthy (o.getD (JsVal.num 0)) = truthy (o.getD JsVal.undef) := by
  cases o <;> simp [truthy]

/-- C7: with marker `m1` and paired marker `{"ps","pe","pn"}` configured, a
derived key is present in the output iff both of its operand absolute
timestamps are present as nonzero numbers (a stored `0`, like an absent or
`NaN` entry, counts as not found); with no recognizable anchor every
`timeTo*` key is absent. -/
theorem derived_keys_present_iff (trace : List Char) (pkg : String) :
    (getM (processTraceData ⟨pkg, ["m1"], [⟨"ps", "pe", "pn"⟩]⟩ trace) "timeTom1" ≠ JsVal.undef ↔
      truthy (getM (processTraceData ⟨pkg, ["m1"], [⟨"ps", "pe", "pn"⟩]⟩ trace) "appStartTimestamp") = true ∧
      truthy (getM (processTraceData ⟨pkg, ["m1"], [⟨"ps", "pe", "pn"⟩]⟩ trace) "m1Timestamp") = true) ∧
    (getM (processTraceData ⟨pkg, ["m1"], [⟨"ps", "pe", "pn"⟩]⟩ trace) "pnDuration" ≠ JsVal.undef ↔
      truthy (getM (processTraceData ⟨pkg, ["m1"], [⟨"ps", "pe", "pn"⟩]⟩ trace) "psTimestamp") = true ∧
      truthy (getM (processTraceData ⟨pkg, ["m1"], [⟨"ps", "pe", "pn"⟩]⟩ trace) "peTimestamp") = true) ∧
    (getM (processTraceData ⟨pkg, ["m1"], [⟨"ps", "pe", "pn"⟩]⟩ trace) "timeTops" ≠ JsVal.undef ↔
      truthy (getM (processTraceData ⟨pkg, ["m1"], [⟨"ps", "pe", "pn"⟩]⟩ trace) "appStartTimestamp") = true ∧
      truthy (getM (processTraceData ⟨pkg, ["m1"], [⟨"ps", "pe", "pn"⟩]⟩ trace) "psTimestamp") = true) ∧
    (truthy (getM (processTraceData ⟨pkg, ["m1"], [⟨"ps", "pe", "pn"⟩]⟩ trace) "appStartTimestamp") = false →
      getM (processTraceData ⟨pkg, ["m1"], [⟨"ps", "pe", "pn"⟩]⟩ trace) "timeTom1" = JsVal.undef ∧
      getM (processTraceData ⟨pkg, ["m1"], [⟨"ps", "pe", "pn"⟩]⟩ trace) "timeTops" = JsVal.undef ∧
      getM (processTraceData ⟨pkg, ["m1"], [⟨"ps", "pe", "pn"⟩]⟩ trace) "timeTope" = JsVal.undef ∧
      getM (processTraceData ⟨pkg, ["m1"], [⟨"ps", "pe", "pn"⟩]⟩ trace) "timeToCreate" = JsVal.undef) := by
  have hstages := processTraceData_stages ⟨pkg, ["m1"], [⟨"ps", "pe", "pn"⟩]⟩ trace
  have haTs : getM (processTraceData ⟨pkg, ["m1"], [⟨"ps", "pe", "pn"⟩]⟩ trace) "appStartTimestamp" =
      (if truthy (rawAppStart trace pkg) = true then normalizeVal (rawAppStart trace pkg)
       else rawAppStart trace pkg) := by
    rw [hstages, norm_appStart,
      rel_other trace pkg _ (by decide) (by decide) (by decide) (by decide)
        (by decide) (by decide) (by decide),
      collect_appStart]
  have hm1Ts : getM (processTraceData ⟨pkg, ["m1"], [⟨"ps", "pe", "pn"⟩]⟩ trace) "m1Timestamp" =
      (if truthy ((rawMarker trace "m1").getD JsVal.undef) = true then
        normalizeVal ((rawMarker trace "m1").getD JsVal.undef)
       else (rawMarker trace "m1").getD JsVal.undef) := by
    rw [hstages, norm_m1Ts,
      rel_other trace pkg _ (by decide) (by decide) (by decide) (by decide)
        (by decide) (by decide) (by decide),
      collect_m1Ts]
  have hpsTs : getM (processTraceData ⟨pkg, ["m1"], [⟨"ps", "pe", "pn"⟩]⟩ trace) "psTimestamp" =
      (if truthy ((rawPairSide trace "ps").getD JsVal.undef) = true then
        normalizeVal ((rawPairSide trace "ps").getD JsVal.undef)
       else (rawPairSide trace "ps").getD JsVal.undef) := by
    rw [hstages, norm_psTs,
      rel_other trace pkg _ (by decide) (by decide) (by decide) (by decide)
        (by decide) (by decide) (by decide),
      collect_psTs]
  have hpeTs : getM (processTraceData ⟨pkg, ["m1"], [⟨"ps", "pe", "pn"⟩]⟩ trace) "peTimestamp" =
      (if truthy ((rawPairSide trace "pe").getD JsVal.undef) = true then
        normalizeVal ((rawPairSide trace "pe").getD JsVal.undef)
       else (rawPairSide trace "pe").getD JsVal.undef) := by
    rw [hstages, norm_peTs,
      rel_other trace pkg _ (by decide) (by decide) (by decide) (by decide)
        (by decide) (by decide) (by decide),
      collect_peTs]
  have htrA : truthy (getM (processTraceData ⟨pkg, ["m1"], [⟨"ps", "pe", "pn"⟩]⟩ trace) "appStartTimestamp") =
      truthy (rawAppStart trace pkg) := by
    rw [haTs]; exact truthy_ite_normalizeVal _
  have htrM : truthy (getM (processTraceData ⟨pkg, ["m1"], [⟨"ps", "pe", "pn"⟩]⟩ trace) "m1Timestamp") =
      truthy ((rawMarker trace "m1").getD JsVal.undef) := by
    rw [hm1Ts]; exact truthy_ite_normalizeVal _
  have htrS : truthy (getM (processTraceData ⟨pkg, ["m1"], [⟨"ps", "pe", "pn"⟩]⟩ trace) "psTimestamp") =
      truthy ((rawPairSide trace "ps").getD JsVal.undef) := by
    rw [hpsTs]; exact truthy_ite_normalizeVal _
  have htrE : truthy (getM (processTraceData ⟨pkg, ["m1"], [⟨"ps", "pe", "pn"⟩]⟩ trace) "peTimestamp") =
      truthy ((rawPairSide trace "pe").getD JsVal.undef) := by
    rw [hpeTs]; exact truthy_ite_normalizeVal _
  have htom1 : getM (processTraceData ⟨pkg, ["m1"], [⟨"ps", "pe", "pn"⟩]⟩ trace) "timeTom1" =
      (let X := if truthy (rawAppStart trace pkg) = true then
          (if truthy ((rawMarker trace "m1").getD JsVal.undef) = true then
            jsSub ((rawMarker trace "m1").getD JsVal.undef) (rawAppStart trace pkg)
          else JsVal.undef)
        else JsVal.undef
       if truthy X = true then roundVal X else X) := by
    rw [hstages, norm_round_key pkg _ (Or.inl rfl), rel_timeTom1, collect_m1Ts,
      collect_other trace pkg (by decide) (by decide) (by decide) (by decide) (by decide)]
  have htops : getM (processTraceData ⟨pkg, ["m1"], [⟨"ps", "pe", "pn"⟩]⟩ trace) "timeTops" =
      (let X := if truthy (rawAppStart trace pkg) = true then
          (if truthy ((rawPairSide trace "ps").getD JsVal.undef) = true then
            jsSub ((rawPairSide trace "ps").getD JsVal.undef) (rawAppStart trace pkg)
          else JsVal.undef)
        else JsVal.undef
       if truthy X = true then roundVal X else X) := by
    rw [hstages, norm_round_key pkg _ (Or.inr (Or.inr (Or.inl rfl))), rel_timeTops,
      collect_psTs,
      collect_other trace pkg (by decide) (by decide) (by decide) (by decide) (by decide)]
  have htope : getM (processTraceData ⟨pkg, ["m1"], [⟨"ps", "pe", "pn"⟩]⟩ trace) "timeTope" =
      (let X := if truthy (rawAppStart trace pkg) = true then
          (if truthy ((rawPairSide trace "pe").getD JsVal.undef) = true then
            jsSub ((rawPairSide trace "pe").getD JsVal.undef) (rawAppStart trace pkg)
          else JsVal.undef)
        else JsVal.undef
       if truthy X = true then roundVal X else X) := by
    rw [hstages, norm_round_key pkg _ (Or.inr (Or.inr (Or.inr rfl))), rel_timeTope,
      collect_peTs,
      collect_other trace pkg (by decide) (by decide) (by decide) (by decide) (by decide)]
  have hpnD : getM (processTraceData ⟨pkg, ["m1"], [⟨"ps", "pe", "pn"⟩]⟩ trace) "pnDuration" =
      (let X := if (truthy ((rawPairSide trace "ps").getD (JsVal.num 0)) &&
            truthy ((rawPairSide trace "pe").getD (JsVal.num 0))) = true then
          jsSub ((rawPairSide trace "pe").getD (JsVal.num 0))
            ((rawPairSide trace "ps").getD (JsVal.num 0))
        else JsVal.undef
       if truthy X = true then roundVal X else X) := by
    rw [hstages, norm_round_key pkg _ (Or.inr (Or.inl rfl)),
      rel_other trace pkg _ (by decide) (by decide) (by decide) (by decide)
        (by decide) (by decide) (by decide),
      collect_pnD]
  refine ⟨?_, ?_, ?_, ?_⟩
  · rw [htom1, htrA, htrM]
    cases hA : truthy (rawAppStart trace pkg) <;>
      cases hM : truthy ((rawMarker trace "m1").getD JsVal.undef) <;>
      simp [hA, hM, truthy] <;>
      (try (split <;> simp [roundVal_eq_undef_iff, jsSub_ne_undef]))
  · rw [hpnD, htrS, htrE, ← truthy_getD_zero_undef, ← truthy_getD_zero_undef]
    cases hS : truthy ((rawPairSide trace "ps").getD (JsVal.num 0)) <;>
      cases hE : truthy ((rawPairSide trace "pe").getD (JsVal.num 0)) <;>
      simp [hS, hE, truthy] <;>
      (try (split <;> simp [roundVal_eq_undef_iff, jsSub_ne_undef]))
  · rw [htops, htrA, htrS, ← truthy_getD_zero_undef]
    rw [truthy_getD_zero_undef]
    cases hA : truthy (rawAppStart trace pkg) <;>
      cases hS : truthy ((rawPairSide trace "ps").getD JsVal.undef) <;>
      simp [hA, hS, truthy] <;>
      (try (split <;> simp [roundVal_eq_undef_iff, jsSub_ne_undef]))
  · intro hfalsy
    rw [htrA] at hfalsy
    have hrelnil := rel_noanchor ⟨pkg, ["m1"], [⟨"ps", "pe", "pn"⟩]⟩ trace
      (collectStage ⟨pkg, ["m1"], [⟨"ps", "pe", "pn"⟩]⟩ trace) hfalsy
    refine ⟨?_, ?_, ?_, ?_⟩
    · rw [htom1, hfalsy]
      simp [truthy]
    · rw [htops, hfalsy]
      simp [truthy]
    · rw [htope, hfalsy]
      simp [truthy]
    · rw [hstages, hrelnil,
        norm_other pkg _ (by decide) (by decide) (by decide) (by decide) (by decide)
          (by decide) (by decide) (by decide) (by decide) (by decide) (by decide)
          (by decide),
        collect_other trace pkg (by decide) (by decide) (by decide) (by decide)
          (by decide)]

theorem rawAppStart_ne_undef (trace : List Char) (pkg : String) :
    rawAppStart trace pkg ≠ JsVal.undef := by
  have step : ∀ (o : Option (List Char)) (d : JsVal), d ≠ JsVal.undef →
      (match o with | some c => parseFloatQ c | none => d) ≠ JsVal.undef := by
    intro o d hd
    cases o with
    | none => exact hd
    | some c => exact parseFloatQ_ne_undef c
  unfold rawAppStart
  rcases hF : firstPatternMatch (appStartPatterns pkg) trace with _ | c0 <;>
    rcases h1 : reMatch (appFirstMentionPat pkg) trace with _ | c1 <;>
    rcases h2 : reMatch firstTimestampPat trace with _ | c2 <;>
    simp only [hF, h1, h2] <;>
    split_ifs <;>
    first
      | exact parseFloatQ_ne_undef _
      | simp

theorem processTrace_m1_noanchor (trace : List Char) (pkg : String) {v : JsVal} {t : ℚ}
    (hA : rawAppStart trace pkg = v) (hv : truthy v = false)
    (hM : rawMarker trace "m1" = some (JsVal.num t)) (ht : t ≠ 0) :
    getM (processTraceData ⟨pkg, ["m1"], []⟩ trace) "m1Timestamp"
      = JsVal.num (normalizeTimestamp t) ∧
    getM (processTraceData ⟨pkg, ["m1"], []⟩ trace) "timeTom1" = JsVal.undef := by
  have hc : collectStage ⟨pkg, ["m1"], []⟩ trace =
      [("appStartTimestamp", v), ("m1Timestamp", JsVal.num t)] := by
    unfold collectStage
    simp only [rawMilestone_none, List.foldl_cons, List.foldl_nil, hA, hM]
    simp [setM]
  have hrel : relativeStage ⟨pkg, ["m1"], []⟩ trace
      [("appStartTimestamp", v), ("m1Timestamp", JsVal.num t)] =
      [("appStartTimestamp", v), ("m1Timestamp", JsVal.num t)] :=
    rel_noanchor _ trace _ (by rw [hA]; exact hv)
  have n1 : normKey [("appStartTimestamp", v), ("m1Timestamp", JsVal.num t)]
      "appStartTimestamp" = [("appStartTimestamp", v), ("m1Timestamp", JsVal.num t)] := by
    simp [normKey, getM, hv]
  have n2 : ∀ k : String, k ≠ "appStartTimestamp" → k ≠ "m1Timestamp" →
      normKey [("appStartTimestamp", v), ("m1Timestamp", JsVal.num t)] k =
      [("appStartTimestamp", v), ("m1Timestamp", JsVal.num t)] := by
    intro k h1 h2
    simp [normKey, getM, Ne.symm h1, Ne.symm h2, truthy]
  have n6 : normKey [("appStartTimestamp", v), ("m1Timestamp", JsVal.num t)]
      "m1Timestamp" =
      [("appStartTimestamp", v), ("m1Timestamp", JsVal.num (normalizeTimestamp t))] := by
    simp [normKey, getM, setM, truthy, ht, normalizeVal]
  have n7 : roundKey
      [("appStartTimestamp", v), ("m1Timestamp", JsVal.num (normalizeTimestamp t))]
      "timeTom1" =
      [("appStartTimestamp", v), ("m1Timestamp", JsVal.num (normalizeTimestamp t))] := by
    simp [roundKey, getM, truthy]
  have hnorm : normalizeStage ⟨pkg, ["m1"], []⟩
      [("appStartTimestamp", v), ("m1Timestamp", JsVal.num t)] =
      [("appStartTimestamp", v), ("m1Timestamp", JsVal.num (normalizeTimestamp t))] := by
    unfold normalizeStage
    simp only [List.foldl_cons, List.foldl_nil,
      show ("m1" ++ "Timestamp" : String) = "m1Timestamp" from rfl,
      show ("timeTo" ++ "m1" : String) = "timeTom1" from rfl]
    rw [n1, n2 "activityCreateTimestamp" (by decide) (by decide),
      n2 "activityStartTimestamp" (by decide) (by decide),
      n2 "activityResumeTimestamp" (by decide) (by decide),
      n2 "activityDrawnTimestamp" (by decide) (by decide), n6, n7]
  rw [processTraceData_stages, hc, hrel, hnorm]
  constructor <;> simp [getM]

/-- C2 (amended): the derived `timeTom1` is the RAW marker timestamp minus
the RAW anchor, rounded to 3 decimals; unit normalization is applied to the
absolute keys only, AFTER the relative-offset derivation, and is never
applied to the derived key. -/
theorem relative_offsets_from_raw (trace : List Char) (pkg : String) {a t : ℚ}
    (hA : rawAppStart trace pkg = JsVal.num a) (ha : a ≠ 0)
    (hM : rawMarker trace "m1" = some (JsVal.num t)) (ht : t ≠ 0) :
    getM (processTraceData ⟨pkg, ["m1"], []⟩ trace) "timeTom1"
      = JsVal.num (roundTo3 (t - a)) ∧
    getM (processTraceData ⟨pkg, ["m1"], []⟩ trace) "m1Timestamp"
      = JsVal.num (normalizeTimestamp t) ∧
    getM (processTraceData ⟨pkg, ["m1"], []⟩ trace) "appStartTimestamp"
      = JsVal.num (normalizeTimestamp a) := by
  obtain ⟨h1, h2, h3⟩ := processTrace_m1_eval trace pkg hA ha hM ht
  exact ⟨h3, h2, h1⟩

/-- C2 counterexample: on a microsecond-unit trace the absolute keys are
normalized to seconds (1.5 and 2.5) but `timeTom1` is the raw microsecond
difference 1000000, not the normalized difference 1.0 the claim requires. -/
theorem relative_offset_normalization_counterexample :
    getM (processTraceData ⟨"com.app", ["m1"], []⟩
        "a ( 1) [0] . 1500000: tracing_mark_write: B|1|Startup\nb ( 1) [0] . 2500000: tracing_mark_write: B|2|m1".toList)
      "appStartTimestamp" = JsVal.num (3 / 2) ∧
    getM (processTraceData ⟨"com.app", ["m1"], []⟩
        "a ( 1) [0] . 1500000: tracing_mark_write: B|1|Startup\nb ( 1) [0] . 2500000: tracing_mark_write: B|2|m1".toList)
      "m1Timestamp" = JsVal.num (5 / 2) ∧
    getM (processTraceData ⟨"com.app", ["m1"], []⟩
        "a ( 1) [0] . 1500000: tracing_mark_write: B|1|Startup\nb ( 1) [0] . 2500000: tracing_mark_write: B|2|m1".toList)
      "timeTom1" = JsVal.num 1000000 ∧
    roundTo3 ((5 / 2 : ℚ) - 3 / 2) = 1 ∧ (1000000 : ℚ) ≠ 1 := by
  refine ⟨by decide!, by decide!, by decide!, by decide!, by norm_num⟩

theorem relative_offsets_from_raw_witness :
    getM (processTraceData ⟨"com.app", ["m1"], []⟩
        "a ( 1) [0] . 1500000: tracing_mark_write: B|1|Startup\nb ( 1) [0] . 2500000: tracing_mark_write: B|2|m1".toList)
      "timeTom1" = JsVal.num (roundTo3 (2500000 - 1500000)) :=
  (relative_offsets_from_raw
    "a ( 1) [0] . 1500000: tracing_mark_write: B|1|Startup\nb ( 1) [0] . 2500000: tracing_mark_write: B|2|m1".toList
    "com.app" (by decide!) (by norm_num) (by decide!) (by norm_num)).1

/-- C5 counterexample: the trace's only `m1` line has timestamp `20.0` (the
generic `m1` pattern captures `20.0`), yet the extractor records
`m1Timestamp = 10` from the unrelated `TEST_EVENT_MANUAL` line, because the
unconditional TEST_EVENT patterns outrank the generic marker pattern. -/
theorem marker_single_occurrence_counterexample :
    reMatch (Tok.cap :: anyStarG :: lits "m1")
      "noise 10.0 TEST_EVENT_MANUAL\nstuff 20.0 m1".toList = some "20.0".toList ∧
    getM (processTraceData ⟨"com.app", ["m1"], []⟩
        "noise 10.0 TEST_EVENT_MANUAL\nstuff 20.0 m1".toList) "m1Timestamp"
      = JsVal.num 10 ∧
    JsVal.num (10 : ℚ) ≠ JsVal.num 20 :=
  ⟨by decide, by decide!, by decide!⟩

/-- C5 (amended): `m1Timestamp` is the unit-normalized value captured by the
FIRST pattern of the marker's fallback list that matches anywhere in the
text (which is the marker's own occurrence only when no higher-priority
pattern, such as the unconditional TEST_EVENT ones, matches first), recorded
whether or not the anchor resolves; `timeTom1` is the raw difference rounded
to 3 decimals when the anchor is also truthy. -/
theorem marker_from_first_matching_pattern (trace : List Char) (pkg : String) {t : ℚ}
    (hM : rawMarker trace "m1" = some (JsVal.num t)) (ht : t ≠ 0) :
    getM (processTraceData ⟨pkg, ["m1"], []⟩ trace) "m1Timestamp"
      = JsVal.num (normalizeTimestamp t) ∧
    (∀ a : ℚ, rawAppStart trace pkg = JsVal.num a → a ≠ 0 →
      getM (processTraceData ⟨pkg, ["m1"], []⟩ trace) "timeTom1"
        = JsVal.num (roundTo3 (t - a))) := by
  constructor
  · rcases hv : rawAppStart trace pkg with _ | _ | a
    · exact absurd hv (rawAppStart_ne_undef trace pkg)
    · exact (processTrace_m1_noanchor trace pkg hv rfl hM ht).1
    · by_cases ha : a = 0
      · subst ha
        exact (processTrace_m1_noanchor trace pkg hv (by simp [truthy]) hM ht).1
      · exact (processTrace_m1_eval trace pkg hv ha hM ht).2.1
  · intro a hA ha
    exact (processTrace_m1_eval trace pkg hA ha hM ht).2.2

theorem marker_from_first_matching_pattern_witness :
    getM (processTraceData ⟨"com.app", ["m1"], []⟩
        "a ( 1) [0] . 1.5: tracing_mark_write: B|1|Startup\nb ( 1) [0] . 5.5: tracing_mark_write: B|7|m1".toList)
      "m1Timestamp" = JsVal.num (normalizeTimestamp (11 / 2)) ∧
    getM (processTraceData ⟨"com.app", ["m1"], []⟩
        "a ( 1) [0] . 1.5: tracing_mark_write: B|1|Startup\nb ( 1) [0] . 5.5: tracing_mark_write: B|7|m1".toList)
      "timeTom1" = JsVal.num (roundTo3 (11 / 2 - 3 / 2)) := by
  have hM : rawMarker
      "a ( 1) [0] . 1.5: tracing_mark_write: B|1|Startup\nb ( 1) [0] . 5.5: tracing_mark_write: B|7|m1".toList
      "m1" = some (JsVal.num (11 / 2)) := by decide!
  have hA : rawAppStart
      "a ( 1) [0] . 1.5: tracing_mark_write: B|1|Startup\nb ( 1) [0] . 5.5: tracing_mark_write: B|7|m1".toList
      "com.app" = JsVal.num (3 / 2) := by decide!
  have h := marker_from_first_matching_pattern
    "a ( 1) [0] . 1.5: tracing_mark_write: B|1|Startup\nb ( 1) [0] . 5.5: tracing_mark_write: B|7|m1".toList
    "com.app" hM (by norm_num)
  exact ⟨h.1, h.2 (3 / 2) hA (by norm_num)⟩

theorem derived_keys_present_iff_witness :
    truthy (getM (processTraceData ⟨"com.app", ["m1"], [⟨"ps", "pe", "pn"⟩]⟩
        "junk 5.0 m1".toList) "appStartTimestamp") = false ∧
    getM (processTraceData ⟨"com.app", ["m1"], [⟨"ps", "pe", "pn"⟩]⟩
        "junk 5.0 m1".toList) "timeTom1" = JsVal.undef ∧
    getM (processTraceData ⟨"com.app", ["m1"], [⟨"ps", "pe", "pn"⟩]⟩
        "junk 5.0 m1".toList) "m1Timestamp" = JsVal.num 5 := by
  refine ⟨by decide!, ?_, by decide!⟩
  exact ((derived_keys_present_iff "junk 5.0 m1".toList "com.app").2.2.2 (by decide!)).1
